import Mathlib

/-!
Verification of the DailyDJ recommendation pipeline.

This file shallowly embeds the core logic of the repository's
`spotify_automation` package:

* `gpt_recommender.py` — the merge engine (`merge_gpt_recommendations`),
  the pool matcher (`_match_recommendations` / `_build_track_index`),
  the response parser (`GPTResponseParser.parse`), and the high level
  driver (`run_gpt_recommender`).
* `taste_profile.py` — `normalize_text`, `is_hard_banned`,
  `apply_constraints`, and the profile loader `load_taste_profile`.

Modelling conventions:

* Python `str` is modelled as `String`; character level operations are
  written over `List Char` so that the kernel can evaluate them
  (ASCII-faithful; Python's unicode-aware `str.lower` is modelled as
  ASCII lowering, which is exact on every string appearing in the
  repository and in the claims).
* Python `float` is modelled as `ℚ`.  All arithmetic on it is written
  through integer numerator/denominator computations so that concrete
  instances evaluate in the kernel.  Binary floating point rounding is
  not modelled; no verified statement depends on a value where the two
  differ.
* Python `dict` is modelled as an insertion-ordered association list
  (`List (key × value)`) with overwrite-in-place update semantics.
* `datetime` values are modelled as integer timestamps in seconds;
  `timedelta(days = d)` is `d * 86400` seconds.  (`feedback_state`
  stores ISO strings in the source; the model stores the parsed
  instants directly.)
* Raising an exception is modelled as `Except.error`.
-/

/-- ASCII lowering of one character, the effect of Python `str.lower`
on the ASCII range. -/
def charLower (c : Char) : Char :=
  if 'A' ≤ c ∧ c ≤ 'Z' then Char.ofNat (c.toNat + 32) else c

/-- Python `str.lower`, modelled on the ASCII range. -/
def strLower (s : String) : String :=
  ⟨s.data.map charLower⟩

/-- The characters matched by Python's regex `\s` (ASCII). -/
def pyIsSpace (c : Char) : Bool :=
  c == ' ' || c == '\t' || c == '\n' || c == '\r' || c == '\x0b' || c == '\x0c'

/-- Split a character list into maximal runs of non-whitespace. -/
def wsWords : List Char → List Char → List (List Char)
  | [], cur => if cur.isEmpty then [] else [cur.reverse]
  | c :: rest, cur =>
    if pyIsSpace c then
      if cur.isEmpty then wsWords rest [] else cur.reverse :: wsWords rest []
    else wsWords rest (c :: cur)

/-- Python `re.sub(r"\s+", " ", s).strip()`: collapse whitespace runs to
single spaces and trim the ends. -/
def wsNormalize (s : String) : String :=
  ⟨List.intercalate [' '] (wsWords s.data [])⟩

/-- Python `a.isPrefixOf`-style test is `List.isPrefixOf`; this is the
substring test of Python's `needle in hay`. -/
def listIsSubstr (n : List Char) : List Char → Bool
  | [] => n.isEmpty
  | c :: t => List.isPrefixOf n (c :: t) || listIsSubstr n t

/-- Python `needle in hay` on strings. -/
def pyInStr (needle hay : String) : Bool :=
  listIsSubstr needle.data hay.data

/-- Lookup in a Python-dict model (`d.get(key)`). -/
def pyGet {α : Type} : List (String × α) → String → Option α
  | [], _ => none
  | (k, v) :: rest, key => if k == key then some v else pyGet rest key

/-- `d[key] = v` on a Python-dict model: overwrite in place if the key
exists (keeping its position), otherwise append. -/
def pyInsert {α : Type} (d : List (String × α)) (k : String) (v : α) :
    List (String × α) :=
  if d.any (fun p => p.1 == k) then
    d.map (fun p => if p.1 == k then (k, v) else p)
  else d ++ [(k, v)]

/-- Python `round` on the rational `n / d` (with `d > 0`): round half to
even.  Written on the numerator and denominator so the kernel can
evaluate it. -/
def pyRoundInt (n d : ℤ) : ℤ :=
  let f := n.fdiv d
  let r := n - f * d
  if 2 * r < d then f
  else if d < 2 * r then f + 1
  else if f % 2 = 0 then f else f + 1

/-- Python `round(limit * q)` for an integer `limit` and a float `q`. -/
def pyRoundMul (limit : ℤ) (q : ℚ) : ℤ :=
  pyRoundInt (limit * q.num) (q.den : ℤ)

/-- Rational multiplication computed through `mkRat` (definitionally
kernel-evaluable, and equal to `Rat.mul`). -/
def qmul (a b : ℚ) : ℚ :=
  mkRat (a.num * b.num) (a.den * b.den)

/-- Truthiness of Python's `Optional[str]`: `None` and `""` are falsy. -/
def truthyOptStr : Option String → Bool
  | none => false
  | some s => !(s == "")

/-- Render the integer `n` (hundredths) as a fixed two-decimal string,
the model of Python `f"{conf:.2f}"` applied to `conf = n / 100`.
(A Python float `-0.0…` would render with a leading minus; the model
does not keep a sign on zero.) -/
def formatHundredths (n : ℤ) : String :=
  let sign := if n < 0 then "-" else ""
  let a := n.natAbs
  let frac := a % 100
  let fracStr := if frac < 10 then "0" ++ toString frac else toString frac
  sign ++ toString (a / 100) ++ "." ++ fracStr

/-- Python `f"{conf:.2f}"` on the float model. -/
def formatConfidence (q : ℚ) : String :=
  formatHundredths (pyRoundInt (100 * q.num) (q.den : ℤ))

/-- `TrackCandidate` from `gpt_recommender.py`: the simplified
representation of a Spotify track. -/
structure TrackCandidate where
  track_id : String
  title : String
  artist : String
  album : Option String := none
  energy_tag : Option String := none
  metadata : List (String × String) := []
deriving DecidableEq, Repr

/-- `RulePreferences` from `gpt_recommender.py`. -/
structure RulePreferences where
  banned_artists : List String := []
  reduce_frequency_artists : List String := []
  increase_weight_artists : List String := []
deriving DecidableEq, Repr

/-- `GPTRecommendation` from `gpt_recommender.py`. -/
structure GPTRecommendation where
  title : String
  artist : String
  reason : String
  energy_tag : Option String := none
  spotify_track_id : Option String := none
  confidence : ℚ := mkRat 1 2
deriving DecidableEq, Repr

/-- `_normalize_key(artist, title)` from `gpt_recommender.py`:
whitespace-collapse, strip and lower both parts, join with `::`. -/
def normalizeKey (artist title : String) : String :=
  strLower (wsNormalize artist) ++ "::" ++ strLower (wsNormalize title)

/-- `_build_track_index(pool)` from `gpt_recommender.py`: index every
pool track under its lower-cased id (when non-empty) and under its
normalized `artist::title` composite key; later tracks overwrite
earlier colliding keys, as in a Python dict. -/
def buildTrackIndex (pool : List TrackCandidate) :
    List (String × TrackCandidate) :=
  pool.foldl
    (fun index track =>
      let index :=
        if track.track_id ≠ "" then
          pyInsert index (strLower track.track_id) track
        else index
      pyInsert index (normalizeKey track.artist track.title) track)
    []

/-- The per-recommendation resolution step of `_match_recommendations`:
try the lower-cased Spotify id first (when truthy), then the normalized
composite key. -/
def resolveRec (index : List (String × TrackCandidate))
    (rec : GPTRecommendation) : Option TrackCandidate :=
  let byId :=
    if truthyOptStr rec.spotify_track_id then
      pyGet index (strLower (rec.spotify_track_id.getD ""))
    else none
  match byId with
  | some t => some t
  | none => pyGet index (normalizeKey rec.artist rec.title)

/-- The enrichment step of `_match_recommendations`: copy the track with
`gpt_reason` and `gpt_confidence` merged into its metadata. -/
def enrichRec (rec : GPTRecommendation) (track : TrackCandidate) :
    TrackCandidate :=
  { track with
    metadata :=
      pyInsert (pyInsert track.metadata "gpt_reason" rec.reason)
        "gpt_confidence" (formatConfidence rec.confidence) }

/-- The warning text emitted for an unmatched recommendation. -/
def recWarning (rec : GPTRecommendation) : String :=
  "GPT recommended \x27" ++ rec.artist ++ " – " ++ rec.title ++
    "\x27, but it was not in the Spotify pool."

/-- `_match_recommendations(recommendations, index)` from
`gpt_recommender.py`. -/
def matchRecommendations (recs : List GPTRecommendation)
    (index : List (String × TrackCandidate)) :
    List TrackCandidate × List String :=
  match recs with
  | [] => ([], [])
  | rec :: rest =>
    let tail := matchRecommendations rest index
    match resolveRec index rec with
    | none => (tail.1, recWarning rec :: tail.2)
    | some track => (enrichRec rec track :: tail.1, tail.2)

/-- `_preference_weight(track, prefs)` from `gpt_recommender.py`:
multiplicative weight starting from 1.0 with exact (lower-cased)
artist matching. -/
def preferenceWeight (track : TrackCandidate) (prefs : RulePreferences) :
    ℚ :=
  let artist := strLower track.artist
  let weight : ℚ := mkRat 1 1
  let weight :=
    if prefs.increase_weight_artists.any (fun item => artist == strLower item)
    then qmul weight (mkRat 13 10) else weight
  let weight :=
    if prefs.reduce_frequency_artists.any (fun item => artist == strLower item)
    then qmul weight (mkRat 7 10) else weight
  let weight :=
    if prefs.banned_artists.any (fun item => artist == strLower item)
    then qmul weight (mkRat 1 10) else weight
  weight

/-- Stable insertion of `a` in front of the first element whose weight
does not exceed `a`'s. -/
def orderedInsertDesc {α : Type} (w : α → ℚ) (a : α) : List α → List α
  | [] => [a]
  | b :: l => if w b ≤ w a then a :: b :: l else b :: orderedInsertDesc w a l

/-- Python `list.sort(key=w, reverse=True)`: the unique stable sort that
orders by weight descending and keeps ties in input order. -/
def pySortByWeightDesc {α : Type} (w : α → ℚ) : List α → List α
  | [] => []
  | a :: l => orderedInsertDesc w a (pySortByWeightDesc w l)

/-- The closure `add_track` of `merge_gpt_recommendations`: state is
(final_tracks, seen_ids); a track whose id was already seen is skipped,
otherwise it is appended and its id recorded. -/
def addTrack (s : List TrackCandidate × List String) (t : TrackCandidate) :
    List TrackCandidate × List String :=
  if s.2.contains t.track_id then s else (s.1 ++ [t], s.2 ++ [t.track_id])

/-- One iteration of the `base_tracks` / remaining-pool fill loops:
stop adding once `total_limit` tracks are placed (the loops' `break`). -/
def guardedAddTrack (total_limit : ℤ)
    (s : List TrackCandidate × List String) (t : TrackCandidate) :
    List TrackCandidate × List String :=
  if total_limit ≤ (s.1.length : ℤ) then s else addTrack s t

/-- `discovery_target = max(0, min(total_limit, round(total_limit *
discovery_ratio)))` from `merge_gpt_recommendations`. -/
def discoveryTargetOf (total_limit : ℤ) (discovery_ratio : ℚ) : ℤ :=
  max 0 (min total_limit (pyRoundMul total_limit discovery_ratio))

/-- The truncated matched-discoveries list of `merge_gpt_recommendations`
(`matched_discoveries[:discovery_target]`). -/
def matchedDiscoveriesOf (pool : List TrackCandidate)
    (recs : List GPTRecommendation) (total_limit : ℤ)
    (discovery_ratio : ℚ) : List TrackCandidate :=
  (matchRecommendations recs (buildTrackIndex pool)).1.take
    (discoveryTargetOf total_limit discovery_ratio).toNat

/-- `merge_gpt_recommendations` from `gpt_recommender.py`. -/
def mergeGptRecommendations (base_tracks pool : List TrackCandidate)
    (recs : List GPTRecommendation) (total_limit : ℤ)
    (discovery_ratio : ℚ) (rule_preferences : Option RulePreferences) :
    List TrackCandidate × List String :=
  if total_limit ≤ 0 then ([], ["total_limit must be positive"])
  else
    let pool_index := buildTrackIndex pool
    let matchResult := matchRecommendations recs pool_index
    let warnings := matchResult.2
    let matched := matchResult.1.take
      (discoveryTargetOf total_limit discovery_ratio).toNat
    let s1 := matched.foldl addTrack ([], [])
    let s2 := base_tracks.foldl (guardedAddTrack total_limit) s1
    let s3 :=
      if (s2.1.length : ℤ) < total_limit then
        (pool.filter (fun t => !(s2.2.contains t.track_id))).foldl
          (guardedAddTrack total_limit) s2
      else s2
    let final := s3.1.take total_limit.toNat
    match rule_preferences with
    | some prefs =>
      (pySortByWeightDesc (fun t => preferenceWeight t prefs) final, warnings)
    | none => (final, warnings)

example :
    mergeGptRecommendations [] [] [] 0 (mkRat 1 2) none =
      ([], ["total_limit must be positive"]) := by decide

example :
    (mergeGptRecommendations
      [⟨"base1", "Base Song 1", "Base Artist 1", none, none, []⟩,
       ⟨"base2", "Base Song 2", "Base Artist 2", none, none, []⟩]
      [⟨"base1", "Base Song 1", "Base Artist 1", none, none, []⟩,
       ⟨"base2", "Base Song 2", "Base Artist 2", none, none, []⟩,
       ⟨"cand1", "Discovery Song", "Pool Artist", none, none, []⟩]
      [⟨"Discovery Song", "Pool Artist", "Adds variety", none,
        some "cand1", mkRat 9 10⟩]
      2 (mkRat 1 2) none).1.map TrackCandidate.track_id =
      ["cand1", "base1"] := by decide

/-- Replace every occurrence of the character `c` by `repl`, the effect
of Python `s.replace(c, repl)` for a one-character pattern. -/
def pyReplaceChar (c : Char) (repl : List Char) (s : List Char) :
    List Char :=
  s.flatMap (fun x => if x == c then repl else [x])

/-- Python `string.punctuation`. -/
def pyPunctuation : List Char :=
  "!\"#$%&\x27()*+,-./:;<=>?@[\\]^_\x60\x7b|\x7d~".data

/-- `normalize_text` from `taste_profile.py`: lower-case, rewrite `&`
and `+` to ` and `, strip punctuation, collapse whitespace. -/
def normalizeText (text : String) : String :=
  let lowered := (strLower text).data
  let lowered := pyReplaceChar '&' " and ".data lowered
  let lowered := pyReplaceChar '+' " and ".data lowered
  let stripped := lowered.filter (fun c => !(pyPunctuation.contains c))
  wsNormalize ⟨stripped⟩

/-- The `hard_bans` section of a taste profile (the only part
`is_hard_banned` reads). -/
structure HardBans where
  artists : List String := []
  tracks : List String := []
deriving DecidableEq, Repr

/-- `is_hard_banned(artist, title, profile)` from `taste_profile.py`. -/
def isHardBanned (artist title : String) (hard_bans : HardBans) : Bool :=
  let norm_artist := normalizeText artist
  let norm_title := normalizeText title
  let banned_artists := hard_bans.artists.map normalizeText
  let banned_tracks := hard_bans.tracks.map normalizeText
  banned_artists.any (fun ban => pyInStr ban norm_artist) ||
    banned_tracks.any (fun ban => pyInStr ban norm_title)

/-- The `constraints` section of a taste profile, with the defaults
`apply_constraints` reads through `constraints.get(..., default)`. -/
structure ConstraintsCfg where
  max_tracks_per_artist : ℤ := 2
  cooldown_days_same_track : ℤ := 30
  cooldown_days_same_artist : ℤ := 10
  dedupe_title_variants : Bool := false
deriving DecidableEq, Repr

/-- Feedback-state snapshot as read by `apply_constraints` and
`score_track`: last-seen instants keyed by lower-cased track id and
lower-cased artist (timestamps in seconds). -/
structure FeedbackState where
  track_last_seen : List (String × ℤ) := []
  artist_last_seen : List (String × ℤ) := []
deriving DecidableEq, Repr

/-- Loop state of `apply_constraints`:
(artist_counts, seen_titles, filtered). -/
abbrev ConstraintsState :=
  List (String × ℤ) × List String × List TrackCandidate

/-- One iteration of the `apply_constraints` loop. -/
def applyConstraintsStep (cfg : ConstraintsCfg) (feedback : FeedbackState)
    (now : ℤ) (st : ConstraintsState) (track : TrackCandidate) :
    ConstraintsState :=
  let artist_key := strLower track.artist
  if (pyGet st.1 artist_key).getD 0 ≥ cfg.max_tracks_per_artist then st
  else if
    (match pyGet feedback.track_last_seen (strLower track.track_id) with
     | some last => decide (now - last < cfg.cooldown_days_same_track * 86400)
     | none => false) then st
  else if
    (match pyGet feedback.artist_last_seen artist_key with
     | some last => decide (now - last < cfg.cooldown_days_same_artist * 86400)
     | none => false) then st
  else if cfg.dedupe_title_variants &&
      st.2.1.contains (normalizeText track.title) then st
  else
    let seen_titles :=
      if cfg.dedupe_title_variants then
        st.2.1 ++ [normalizeText track.title]
      else st.2.1
    (pyInsert st.1 artist_key ((pyGet st.1 artist_key).getD 0 + 1),
      seen_titles, st.2.2 ++ [track])

/-- `apply_constraints(tracks, profile, feedback_state, now)` from
`taste_profile.py`: a single left-to-right greedy pass. -/
def applyConstraints (tracks : List TrackCandidate) (cfg : ConstraintsCfg)
    (feedback : FeedbackState) (now : ℤ) : List TrackCandidate :=
  (tracks.foldl (applyConstraintsStep cfg feedback now) ([], [], [])).2.2

/-- The top-level names defined by `taste_profile.py` (transcribed from
the module source). -/
def tasteProfileTopLevelDefs : List String :=
  ["DEFAULT_PROFILE", "normalize_text", "_load_yaml_like",
   "load_taste_profile", "is_hard_banned", "_weight", "score_track",
   "apply_constraints"]

/-- The names `daily_dj_refresh.py` imports from
`spotify_automation.taste_profile` (line 27 of the module source). -/
def dailyDjRefreshTasteProfileImports : List String :=
  ["load_taste_profile", "resolve_discovery_ratio"]

example : normalizeText "Florence + The Machine" =
    "florence and the machine" := by decide

example :
    isHardBanned "Florence + The Machine" "Dog Days Are Over"
      ⟨["florence and the machine"], []⟩ = true := by decide

example :
    isHardBanned "Weezer" "Buddy Holly"
      ⟨["florence and the machine"], []⟩ = false := by decide

example :
    applyConstraints
      [⟨"t1", "Song1", "Weezer", none, none, []⟩,
       ⟨"t2", "Song2", "Weezer", none, none, []⟩,
       ⟨"t3", "Song3", "Other", none, none, []⟩]
      ⟨1, 30, 10, false⟩ ⟨[], []⟩ 1000000000 =
      [⟨"t1", "Song1", "Weezer", none, none, []⟩,
       ⟨"t3", "Song3", "Other", none, none, []⟩] := by decide

example :
    applyConstraints [⟨"t1", "Song1", "Weezer", none, none, []⟩]
      ⟨1, 30, 10, false⟩ ⟨[], [("weezer", 1000000000 - 86400)]⟩
      1000000000 = [] := by decide

/-- A decoded JSON / YAML document (the result of Python's
`json.loads`); `obj` keeps insertion order like a Python dict.  Numbers
are modelled as rationals (ints and floats are not distinguished). -/
inductive JValue where
  | null
  | bool (b : Bool)
  | num (q : ℚ)
  | str (s : String)
  | arr (items : List JValue)
  | obj (fields : List (String × JValue))
deriving Repr

/-- Python truthiness (`bool(v)`) of a decoded document value. -/
def pyFalsy : JValue → Bool
  | .null => true
  | .bool b => !b
  | .num q => decide (q = 0)
  | .str s => s == ""
  | .arr l => l.isEmpty
  | .obj l => l.isEmpty

/-- The decimal rendering of the number model used by `str(value)`.
Python renders ints without and floats with a decimal point; the model
does not keep that distinction and renders integral values bare. -/
def jNumRepr (q : ℚ) : String :=
  if q.den = 1 then toString q.num
  else toString q.num ++ "/" ++ toString q.den

/-- Python `str(value)` on a decoded document value.  Containers render
with Python's `repr` of their elements; no claim depends on that text,
so the model uses a fixed placeholder for them. -/
def pyStr : JValue → String
  | .null => "None"
  | .bool true => "True"
  | .bool false => "False"
  | .num q => jNumRepr q
  | .str s => s
  | .arr _ => "<list>"
  | .obj _ => "<dict>"

/-- Parse the integer written by a run of decimal digits. -/
def digitsToNat : List Char → Option ℕ
  | [] => none
  | l =>
    if l.all (fun c => c.isDigit) then
      some (l.foldl (fun acc c => acc * 10 + (c.toNat - 48)) 0)
    else none

/-- Python `float(s)` on a plain decimal string (optional sign, digits,
optional fractional part).  Exponent, `inf`/`nan` and underscore forms
are not modelled; they do not occur in any verified statement. -/
def parseDecimal (s : String) : Option ℚ :=
  let t := (((s.data.dropWhile pyIsSpace).reverse).dropWhile pyIsSpace).reverse
  let (neg, t) :=
    match t with
    | '-' :: rest => (true, rest)
    | '+' :: rest => (false, rest)
    | _ => (false, t)
  let intPart := t.takeWhile (fun c => !(c == '.'))
  let rest := t.dropWhile (fun c => !(c == '.'))
  let fracPart :=
    match rest with
    | '.' :: f => some f
    | [] => some []
    | _ => none
  match fracPart with
  | none => none
  | some f =>
    if intPart.isEmpty ∧ f.isEmpty then none
    else
      match digitsToNat (intPart ++ f), (intPart ++ f).isEmpty with
      | some n, _ =>
        let mag : ℚ := mkRat n (10 ^ f.length)
        some (if neg then mkRat (-(n : ℤ)) (10 ^ f.length) else mag)
      | none, _ => none

/-- Python `float(value)`: floats pass through, bools become 0/1,
numeric strings are parsed, everything else raises. -/
def pyFloatOfJ : JValue → Except String ℚ
  | .num q => .ok q
  | .bool b => .ok (if b then 1 else 0)
  | .str s =>
    match parseDecimal s with
    | some q => .ok q
    | none => .error "ValueError: could not convert string to float"
  | .null => .error "TypeError: float() argument must not be None"
  | .arr _ => .error "TypeError: float() argument must not be a list"
  | .obj _ => .error "TypeError: float() argument must not be a dict"

/-- The required-field check of `GPTResponseParser._parse_rec`:
`if field not in data or not data[field]: raise ValueError(...)`. -/
def requireField (fields : List (String × JValue)) (name : String) :
    Except String JValue :=
  match pyGet fields name with
  | none => .error ("GPT response missing \x27" ++ name ++ "\x27 in entry")
  | some v =>
    if pyFalsy v then
      .error ("GPT response missing \x27" ++ name ++ "\x27 in entry")
    else .ok v

/-- `GPTResponseParser._parse_rec(data)` from `gpt_recommender.py`:
validate required fields, coerce and clamp confidence, lower-case the
energy tag, and null out empty optionals.  A non-dict entry raises. -/
def parseRecEntry (data : JValue) : Except String GPTRecommendation :=
  match data with
  | .obj fields =>
    match requireField fields "title" with
    | .error msg => .error msg
    | .ok titleV =>
      match requireField fields "artist" with
      | .error msg => .error msg
      | .ok artistV =>
        match requireField fields "reason" with
        | .error msg => .error msg
        | .ok reasonV =>
          match pyFloatOfJ
              ((pyGet fields "confidence").getD (.num (mkRat 1 2))) with
          | .error msg => .error msg
          | .ok conf0 =>
            let conf : ℚ := max 0 (min 1 conf0)
            let energyTag :=
              match pyGet fields "energy_tag" with
              | none => none
              | some .null => none
              | some v => some (strLower (pyStr v))
            let trackId :=
              match pyGet fields "spotify_track_id" with
              | none => none
              | some .null => none
              | some v => some (pyStr v)
            .ok
              { title := pyStr titleV
                artist := pyStr artistV
                reason := pyStr reasonV
                energy_tag :=
                  match energyTag with
                  | some s => if s == "" then none else some s
                  | none => none
                spotify_track_id :=
                  match trackId with
                  | some s => if s == "" then none else some s
                  | none => none
                confidence := conf }
  | _ => .error "TypeError: recommendation entry is not an object"

/-- The entry loop of `GPTResponseParser.parse`: validate entries in
order, propagating the first failure. -/
def parseRecEntries : List JValue → Except String (List GPTRecommendation)
  | [] => .ok []
  | e :: rest =>
    match parseRecEntry e with
    | .error msg => .error msg
    | .ok r =>
      match parseRecEntries rest with
      | .error msg => .error msg
      | .ok rs => .ok (r :: rs)

/-- `GPTResponseParser.parse` from `gpt_recommender.py`, modelled on the
already-decoded document (code-fence stripping and `json.loads` are the
upstream transport, abstracted away): reject a document without a
`recommendations` list, then validate every entry. -/
def parseGptResponse (payload : JValue) :
    Except String (List GPTRecommendation) :=
  match payload with
  | .obj fields =>
    match pyGet fields "recommendations" with
    | some (.arr recs) => parseRecEntries recs
    | some _ => .error "GPT response missing \x27recommendations\x27 list"
    | none => .error "GPT response missing \x27recommendations\x27 list"
  | _ => .error "AttributeError: response payload is not an object"

example :
    parseGptResponse
      (.obj [("recommendations",
        .arr [.obj [("title", .str "Discovery"),
                    ("artist", .str "Fresh Artist"),
                    ("reason", .str "Matches upbeat vibe"),
                    ("spotify_track_id", .str "cand1"),
                    ("energy_tag", .str "friday"),
                    ("confidence", .num (mkRat 73 100))]])]) =
      .ok [{ title := "Discovery", artist := "Fresh Artist",
             reason := "Matches upbeat vibe", energy_tag := some "friday",
             spotify_track_id := some "cand1",
             confidence := mkRat 73 100 }] := rfl

example : parseGptResponse (.obj [("picks", .arr [])]) =
    .error "GPT response missing \x27recommendations\x27 list" := rfl

/-- Equality on hashable (scalar) document values — the only values a
Python `set` can hold.  (Python's numeric cross-type equalities such as
`True == 1` are not modelled; no verified statement exercises them.) -/
def jScalarEq : JValue → JValue → Bool
  | .null, .null => true
  | .bool a, .bool b => a == b
  | .num a, .num b => decide (a = b)
  | .str a, .str b => a == b
  | _, _ => false

/-- Whether a document value may be put into a Python `set`. -/
def jIsHashable : JValue → Bool
  | .arr _ => false
  | .obj _ => false
  | _ => true

/-- First-occurrence deduplication of scalar values.  Python's set
iteration order is hash-dependent and unspecified; the model normalizes
it to first-occurrence order, which no verified statement depends on. -/
def dedupScalars : List JValue → List JValue → List JValue
  | [], _ => []
  | x :: xs, seen =>
    if seen.any (jScalarEq x) then dedupScalars xs seen
    else x :: dedupScalars xs (x :: seen)

/-- Python iteration (`{*v}`) over a document value: lists yield their
items, strings their characters, dicts their keys; scalars raise. -/
def jIterElems : JValue → Except String (List JValue)
  | .arr l => .ok l
  | .str s => .ok (s.data.map (fun c => .str ⟨[c]⟩))
  | .obj f => .ok (f.map (fun kv => .str kv.1))
  | _ => .error "TypeError: value is not iterable"

/-- Python `list({*a, *b})` up to the documented order normalization. -/
def jSetUnion (a b : List JValue) : Except String (List JValue) :=
  if (a ++ b).all jIsHashable then .ok (dedupScalars (a ++ b) [])
  else .error "TypeError: unhashable type"

/-- Python `base.update(upd)` on dict models. -/
def jObjUpdate (base upd : List (String × JValue)) :
    List (String × JValue) :=
  upd.foldl (fun acc kv => pyInsert acc kv.1 kv.2) base

/-- `DEFAULT_PROFILE` from `taste_profile.py`. -/
def defaultProfileFields : List (String × JValue) :=
  [("hard_bans", .obj [("artists", .arr []), ("tracks", .arr [])]),
   ("avoid", .obj [("artists", .arr []), ("tracks", .arr [])]),
   ("boost", .obj [("artists", .arr []), ("tracks", .arr [])]),
   ("like", .obj [("artists", .arr []), ("tracks", .arr [])]),
   ("track_rules",
     .obj [("hard_bans", .obj [("tracks", .arr [])]),
           ("boost", .obj [("tracks", .arr [])]),
           ("avoid", .obj [("tracks", .arr [])])]),
   ("constraints",
     .obj [("max_tracks_per_artist", .num 2),
           ("cooldown_days_same_track", .num 30),
           ("cooldown_days_same_artist", .num 10),
           ("dedupe_title_variants", .bool false)]),
   ("discovery",
     .obj [("ratio_default", .num 0),
           ("allowed_similarity", .arr []),
           ("discourage_artists", .arr [])]),
   ("scene_anchors", .obj []),
   ("scoring",
     .obj [("boost_weight", .num 1),
           ("like_weight", .num (mkRat 1 2)),
           ("avoid_weight", .num (mkRat (-1) 2)),
           ("hard_ban_weight", .num (-9999)),
           ("played_through_bonus", .num 0),
           ("skipped_early_penalty", .num 0),
           ("recent_play_penalty",
             .obj [("within_days", .num 14), ("penalty", .num (-1))]),
           ("long_time_no_play_bonus",
             .obj [("after_days", .num 120), ("bonus", .num 0)])]),
   ("vibe_tags", .arr []),
   ("modes", .obj [])]

/-- One iteration of the defaults-merge loop of `load_taste_profile`:
a dict value is shallow-merged over the default for its key
(`profile.get(key, {}).copy(); merged.update(value)`); a non-dict
default under a dict value raises; a non-dict value replaces the
default wholesale. -/
def profileMergeStep (profile : List (String × JValue))
    (kv : String × JValue) : Except String (List (String × JValue)) :=
  match kv.2 with
  | .obj vfields =>
    match (pyGet profile kv.1).getD (.obj []) with
    | .obj base => .ok (pyInsert profile kv.1 (.obj (jObjUpdate base vfields)))
    | _ => .error "AttributeError: default value cannot be dict-merged"
  | v => .ok (pyInsert profile kv.1 v)

/-- `track_rules.get(section, {}).get("tracks", [])` from
`load_taste_profile`; raises when either level is not a mapping. -/
def trackRulesSectionTracks (track_rules : JValue) (sectionName : String) :
    Except String JValue :=
  match track_rules with
  | .obj trf =>
    match (pyGet trf sectionName).getD (.obj []) with
    | .obj sf => .ok ((pyGet sf "tracks").getD (.arr []))
    | _ => .error "AttributeError: object has no attribute get"
  | _ => .error "AttributeError: object has no attribute get"

/-- The union step of `load_taste_profile` for one primary section:
`profile[key].setdefault("tracks", []); profile[key]["tracks"] =
list({*profile[key]["tracks"], *new_tracks})`; skipped when
`new_tracks` is falsy. -/
def unionTracksInto (profile : List (String × JValue)) (sectionKey : String)
    (newTracks : JValue) : Except String (List (String × JValue)) :=
  if pyFalsy newTracks then .ok profile
  else
    match pyGet profile sectionKey with
    | none => .error ("KeyError: " ++ sectionKey)
    | some (.obj sf) => do
      let sf :=
        if (pyGet sf "tracks").isSome then sf
        else pyInsert sf "tracks" (.arr [])
      let oldElems ← jIterElems ((pyGet sf "tracks").getD (.arr []))
      let newElems ← jIterElems newTracks
      let union ← jSetUnion oldElems newElems
      .ok (pyInsert profile sectionKey (.obj (pyInsert sf "tracks" (.arr union))))
    | some _ => .error "AttributeError: object has no attribute setdefault"

/-- `load_taste_profile` from `taste_profile.py`, modelled from the
decoded profile document onward (file access and YAML/JSON decoding are
abstracted; a decode failure on the JSON fallback path yields `{}`, so
that path is covered by `data = .obj []`).  Merges the document over
`DEFAULT_PROFILE`, then unions the `track_rules` sublists into the
primary sections. -/
def loadTasteProfileData (data : JValue) : Except String JValue :=
  match data with
  | .obj items => do
    let profile ← items.foldlM profileMergeStep defaultProfileFields
    let track_rules := (pyGet profile "track_rules").getD (.obj [])
    let hard_tracks ← trackRulesSectionTracks track_rules "hard_bans"
    let profile ← unionTracksInto profile "hard_bans" hard_tracks
    let boost_tracks ← trackRulesSectionTracks track_rules "boost"
    let profile ← unionTracksInto profile "boost" boost_tracks
    let like_tracks ← trackRulesSectionTracks track_rules "like"
    let profile :=
      if pyFalsy like_tracks ∨ (pyGet profile "like").isSome then profile
      else pyInsert profile "like" (.obj [])
    let profile ← unionTracksInto profile "like" like_tracks
    let avoid_tracks ← trackRulesSectionTracks track_rules "avoid"
    let profile ← unionTracksInto profile "avoid" avoid_tracks
    .ok (.obj profile)
  | _ => .error "AttributeError: document top level is not a mapping"

example : loadTasteProfileData (.obj []) = .ok (.obj defaultProfileFields) := rfl

example : loadTasteProfileData (.arr []) =
    .error "AttributeError: document top level is not a mapping" := rfl

/-- Python `s.strip()` (ASCII whitespace). -/
def pyStrip (s : String) : String :=
  ⟨(((s.data.dropWhile pyIsSpace).reverse).dropWhile pyIsSpace).reverse⟩

/-- Python `s.rstrip()` (ASCII whitespace). -/
def pyRstrip (s : String) : String :=
  ⟨((s.data.reverse).dropWhile pyIsSpace).reverse⟩

/-- Split on newline characters, keeping empty pieces. -/
def splitNl : List Char → List Char → List String
  | [], cur => [⟨cur.reverse⟩]
  | '\n' :: rest, cur => (⟨cur.reverse⟩ : String) :: splitNl rest []
  | c :: rest, cur => splitNl rest (c :: cur)

/-- Python `s.splitlines()` on a string without a trailing newline (the
builder strips the prompt before splitting, so this is the only case
reached). -/
def pySplitLines (s : String) : List String :=
  splitNl s.data []

/-- `RecommendationContext` from `gpt_recommender.py`. -/
structure RecommendationContext where
  user_profile : List (String × String) := []
  rules : List (String × List String) := []
  listening_history : List TrackCandidate := []
  track_pool : List TrackCandidate := []
  rule_preferences : Option RulePreferences := none

/-- `RecommendationRunResult` from `gpt_recommender.py`. -/
structure RecommendationRunResult where
  tracks : List TrackCandidate
  warnings : List String
  gpt_recommendations : List GPTRecommendation
deriving DecidableEq, Repr

/-- The `fmt` helper of `RulePreferences.to_prompt_lines`. -/
def fmtPrefLine (name : String) (items : List String) : String :=
  "- " ++ name ++ ": " ++
    (if items.isEmpty then "none" else String.intercalate ", " items)

/-- `RulePreferences.to_prompt_lines` from `gpt_recommender.py`. -/
def prefsToPromptLines (prefs : RulePreferences) : List String :=
  [fmtPrefLine "banned_artists" prefs.banned_artists,
   fmtPrefLine "reduce_frequency_artists" prefs.reduce_frequency_artists,
   fmtPrefLine "increase_weight_artists" prefs.increase_weight_artists]

/-- `GPTRequestBuilder._format_profile`. -/
def formatProfileLines (user_profile : List (String × String)) : String :=
  if user_profile.isEmpty then "- (no profile provided)"
  else
    String.intercalate "\n"
      (user_profile.map (fun kv => "- " ++ kv.1 ++ ": " ++ kv.2))

/-- `GPTRequestBuilder._format_rules`. -/
def formatRulesLines (rules : List (String × List String))
    (rule_preferences : Option RulePreferences) : String :=
  let lines :=
    if rules.isEmpty then ["- (no rules provided)"]
    else
      rules.map (fun kv =>
        "- " ++ kv.1 ++ ": " ++
          (if kv.2.isEmpty then "none" else String.intercalate ", " kv.2))
  let lines :=
    match rule_preferences with
    | some prefs =>
      lines ++ ([""] ++ ["Preference summary:"] ++ prefsToPromptLines prefs)
    | none => lines
  String.intercalate "\n" lines

/-- `GPTRequestBuilder._format_tracks`. -/
def formatTrackLines (tracks : List TrackCandidate) : String :=
  if tracks.isEmpty then "- none"
  else
    String.intercalate "\n"
      (tracks.map (fun t =>
        "- " ++ t.artist ++ " – " ++ t.title ++
          (match t.energy_tag with
           | some tag => " [" ++ tag ++ "]"
           | none => "")))

/-- The constant schema block of `GPTRequestBuilder.build`
(`json.dumps(..., indent=2)` of the literal schema dict). -/
def schemaLiteral : String :=
  "\x7b\n  \"recommendations\": [\n    \x7b\n      \"title\": \"Song title\",\n      \"artist\": \"Artist name\",\n      \"energy_tag\": \"monday / tuesday / ... or null\",\n      \"spotify_track_id\": \"optional Spotify track id string\",\n      \"reason\": \"1 short sentence\",\n      \"confidence\": 0.0\n    \x7d\n  ]\n\x7d"

/-- `GPTRequestBuilder.build` from `gpt_recommender.py`: the assembled
prompt, stripped, with every line right-stripped.  (`total_tracks` is a
parameter of the source method that its body never reads.) -/
def buildPrompt (context : RecommendationContext)
    (playlist_name timezone_hint : String)
    (max_history_items max_pool_snapshot : ℕ)
    (discovery_target total_tracks : ℤ) : String :=
  let profile_lines := formatProfileLines context.user_profile
  let rules_lines := formatRulesLines context.rules context.rule_preferences
  let history_lines :=
    formatTrackLines (context.listening_history.take max_history_items)
  let pool_lines :=
    formatTrackLines (context.track_pool.take max_pool_snapshot)
  let instructions :=
    "You must recommend songs that feel like a continuation of the " ++
    "user\x27s taste. Select exactly " ++ toString discovery_target ++
    " new discovery tracks that are not already in the user\x27s history."
  let prompt :=
    "\nI need help programming a playlist called \"" ++ playlist_name ++
    "\". Timezone: " ++ timezone_hint ++ ".\n\nProfile:\n" ++
    profile_lines ++ "\n\nRules:\n" ++ rules_lines ++
    "\n\nRecently loved tracks:\n" ++ history_lines ++
    "\n\nCurrent Spotify pool snapshot:\n" ++ pool_lines ++ "\n\n" ++
    instructions ++ "\n\nReturn ONLY valid JSON that matches this schema:\n" ++
    schemaLiteral ++ "\n"
  String.intercalate "\n" ((pySplitLines (pyStrip prompt)).map pyRstrip)

/-- `run_gpt_recommender` from `gpt_recommender.py`.  The completion
client (`client.complete`) composed with code-fence stripping and
`json.loads` is abstracted as `complete : String → Except String JValue`
(an `Except.error` is an invalid-JSON response); everything after the
decoded document is the modelled parser and merge. -/
def runGptRecommender (context : RecommendationContext)
    (base_tracks : List TrackCandidate)
    (playlist_name timezone_hint : String) (total_limit : ℤ)
    (discovery_ratio : ℚ) (complete : String → Except String JValue)
    (max_history_items : ℕ := 10) (max_pool_snapshot : ℕ := 12) :
    Except String RecommendationRunResult :=
  if discovery_ratio ≤ 0 then .ok ⟨base_tracks, [], []⟩
  else do
    let prompt := buildPrompt context playlist_name timezone_hint
      max_history_items max_pool_snapshot
      (max 1 (pyRoundMul total_limit discovery_ratio)) total_limit
    let payload ← complete prompt
    let recommendations ← parseGptResponse payload
    let merged := mergeGptRecommendations base_tracks context.track_pool
      recommendations total_limit discovery_ratio context.rule_preferences
    .ok ⟨merged.1, merged.2, recommendations⟩

/-- Modelled from the spec: the greedy filter described for
`apply_constraints` — in the caller's order, reject a track whose artist
already appeared `max_tracks_per_artist` times in the output so far,
whose id's last-seen instant is within the same-track cooldown, whose
artist's last-seen instant is within the same-artist cooldown, or
(when dedupe-title-variants is on) whose normalized title was already
accepted in this pass.  Used as the comparison point for the claim that
the source is exactly this filter. -/
def applyConstraintsSpecGo (cfg : ConstraintsCfg) (feedback : FeedbackState)
    (now : ℤ) : List TrackCandidate → List (String × ℤ) → List String →
    List TrackCandidate
  | [], _, _ => []
  | t :: rest, counts, seenTitles =>
    let artistKey := strLower t.artist
    let overArtistCap :=
      decide ((pyGet counts artistKey).getD 0 ≥ cfg.max_tracks_per_artist)
    let inTrackCooldown :=
      match pyGet feedback.track_last_seen (strLower t.track_id) with
      | some last => decide (now - last < cfg.cooldown_days_same_track * 86400)
      | none => false
    let inArtistCooldown :=
      match pyGet feedback.artist_last_seen artistKey with
      | some last => decide (now - last < cfg.cooldown_days_same_artist * 86400)
      | none => false
    let duplicateTitle :=
      cfg.dedupe_title_variants && seenTitles.contains (normalizeText t.title)
    if overArtistCap || inTrackCooldown || inArtistCooldown || duplicateTitle
    then applyConstraintsSpecGo cfg feedback now rest counts seenTitles
    else
      t :: applyConstraintsSpecGo cfg feedback now rest
        (pyInsert counts artistKey ((pyGet counts artistKey).getD 0 + 1))
        (if cfg.dedupe_title_variants then
          seenTitles ++ [normalizeText t.title]
        else seenTitles)

/-- Modelled from the spec: `apply_constraints` as described — a single
left-to-right greedy pass starting from empty state. -/
def applyConstraintsSpec (tracks : List TrackCandidate)
    (cfg : ConstraintsCfg) (feedback : FeedbackState) (now : ℤ) :
    List TrackCandidate :=
  applyConstraintsSpecGo cfg feedback now tracks [] []

/-- Deduplicate by track id, keeping first occurrences, skipping ids
already in `seen`. -/
def dedupById : List TrackCandidate → List String → List TrackCandidate
  | [], _ => []
  | t :: ts, seen =>
    if seen.contains t.track_id then dedupById ts seen
    else t :: dedupById ts (t.track_id :: seen)

/-- Modelled from the spec: the claimed shape of the merge output at
`discovery_ratio = 0` — `base_tracks` deduplicated by identifier in
input order, truncated to `total_limit`, padded from `track_pool` in
pool order (skipping already-placed identifiers) when short. -/
def mergeRatio0Spec (base pool : List TrackCandidate) (limit : ℕ) :
    List TrackCandidate :=
  let placed := (dedupById base []).take limit
  let pids := placed.map (fun t => t.track_id)
  let pad :=
    (dedupById (pool.filter (fun t => !(pids.contains t.track_id))) pids).take
      (limit - placed.length)
  placed ++ pad

/-- The `recommendations` field of a decoded response payload, when the
payload is an object carrying one (`payload.get("recommendations")`). -/
def recommendationsField : JValue → Option JValue
  | .obj fields => pyGet fields "recommendations"
  | _ => none

/-- Whether an entry object lacks (is missing, or holds a falsy value
under) the given required field — the rejection condition of
`GPTResponseParser._parse_rec`. -/
def lacksField (fields : List (String × JValue)) (name : String) : Bool :=
  match pyGet fields name with
  | none => true
  | some v => pyFalsy v

/-- C7: for every `total_limit ≤ 0`, `merge_gpt_recommendations` returns
the empty track list together with the warning
`"total_limit must be positive"`; in the model the function is total, so
no exception is raised on this path. -/
theorem c7_merge_rejects_nonpositive_limit
    (base pool : List TrackCandidate) (recs : List GPTRecommendation)
    (total_limit : ℤ) (discovery_ratio : ℚ)
    (prefs : Option RulePreferences) (h : total_limit ≤ 0) :
    mergeGptRecommendations base pool recs total_limit discovery_ratio
      prefs = ([], ["total_limit must be positive"]) := by
  unfold mergeGptRecommendations
  rw [if_pos h]

theorem c7_merge_rejects_nonpositive_limit_witness :
    (0 : ℤ) ≤ 0 ∧
      mergeGptRecommendations
        [⟨"base1", "Base Song 1", "Base Artist 1", none, none, []⟩] [] [] 0
        (mkRat 1 2) none = ([], ["total_limit must be positive"]) :=
  ⟨le_refl 0,
    c7_merge_rejects_nonpositive_limit _ _ _ _ _ _ (by decide)⟩

/-- C9: `daily_dj_refresh.py` imports `resolve_discovery_ratio` from
`spotify_automation.taste_profile`, but `taste_profile.py` defines no
such name — the import raises `ImportError`, so the claimed function is
not exposed by the module. -/
theorem c9_resolve_discovery_ratio_not_defined :
    "resolve_discovery_ratio" ∈ dailyDjRefreshTasteProfileImports ∧
      "resolve_discovery_ratio" ∉ tasteProfileTopLevelDefs := by
  decide

/-- C10: for every `discovery_ratio ≤ 0`, `run_gpt_recommender` returns
the supplied `base_tracks` unchanged with empty warnings and an empty
recommendations list — no truncation to `total_limit`, no identifier
deduplication, and no pool padding happens on this path (the witness
exercises a base list with a duplicate identifier and more tracks than
`total_limit`). -/
theorem c10_run_returns_base_on_nonpositive_ratio
    (context : RecommendationContext) (base_tracks : List TrackCandidate)
    (playlist_name timezone_hint : String) (total_limit : ℤ)
    (discovery_ratio : ℚ) (complete : String → Except String JValue)
    (max_history_items max_pool_snapshot : ℕ)
    (h : discovery_ratio ≤ 0) :
    runGptRecommender context base_tracks playlist_name timezone_hint
      total_limit discovery_ratio complete max_history_items
      max_pool_snapshot = .ok ⟨base_tracks, [], []⟩ := by
  unfold runGptRecommender
  rw [if_pos h]

theorem c10_run_returns_base_on_nonpositive_ratio_witness :
    (0 : ℚ) ≤ 0 ∧
      runGptRecommender {} 
        [⟨"dup", "Song A", "Artist A", none, none, []⟩,
         ⟨"dup", "Song A", "Artist A", none, none, []⟩,
         ⟨"t3", "Song B", "Artist B", none, none, []⟩]
        "My Daily DJ" "UTC" 1 0 (fun _ => .error "client not called") 10
        12 =
        .ok ⟨[⟨"dup", "Song A", "Artist A", none, none, []⟩,
              ⟨"dup", "Song A", "Artist A", none, none, []⟩,
              ⟨"t3", "Song B", "Artist B", none, none, []⟩], [], []⟩ :=
  ⟨le_refl 0,
    c10_run_returns_base_on_nonpositive_ratio _ _ _ _ _ _ _ _ _ (le_refl 0)⟩

/-- The substring test agrees with `List.IsInfix`. -/
theorem listIsSubstr_iff_infix (n : List Char) :
    ∀ h : List Char, listIsSubstr n h = true ↔ n <:+: h := by
  intro h
  induction h with
  | nil =>
    simp only [listIsSubstr, List.isEmpty_iff, List.infix_nil]
  | cons c t ih =>
    simp only [listIsSubstr, Bool.or_eq_true, List.isPrefixOf_iff_prefix, ih,
      List.infix_cons_iff]

/-- `pyInStr` agrees with `List.IsInfix` on the underlying characters. -/
theorem pyInStr_iff_infix (needle hay : String) :
    pyInStr needle hay = true ↔ needle.data <:+: hay.data :=
  listIsSubstr_iff_infix needle.data hay.data

/-- C6 counterexample: the claimed if-and-only-if pools both hard-ban
lists against both fields; the code checks artist bans against the
artist only and track bans against the title only.  With the track ban
`"buddy"`, artist `"Buddy Guy"` and title `"Song"`, the claimed
condition holds (the normalized ban is a substring of the normalized
artist) but `is_hard_banned` returns `false`. -/
theorem c6_hard_ban_claim_counterexample :
    ¬ (isHardBanned "Buddy Guy" "Song" (HardBans.mk [] ["buddy"]) = true ↔
        ∃ ban ∈ (HardBans.mk [] ["buddy"]).artists ++
            (HardBans.mk [] ["buddy"]).tracks,
          ((normalizeText ban).data <:+: (normalizeText "Buddy Guy").data ∨
            (normalizeText ban).data <:+: (normalizeText "Song").data)) := by
  decide

/-- C6 (amended): `is_hard_banned(artist, title, profile)` returns true
iff some entry of the artist hard-ban list, after normalization
(lower-casing, `&`/`+` → ` and `, punctuation stripping, whitespace
collapsing), is a substring of the normalized artist, or some entry of
the track hard-ban list after normalization is a substring of the
normalized title; in particular it is true for
(`"Florence + The Machine"`, `"Dog Days Are Over"`) against the hard-ban
artist `"florence and the machine"`, and false for
(`"Weezer"`, `"Buddy Holly"`) against the same profile. -/
theorem c6_hard_ban_characterization :
    (∀ (artist title : String) (hard_bans : HardBans),
      (isHardBanned artist title hard_bans = true ↔
        (∃ ban ∈ hard_bans.artists,
          (normalizeText ban).data <:+: (normalizeText artist).data) ∨
        (∃ ban ∈ hard_bans.tracks,
          (normalizeText ban).data <:+: (normalizeText title).data))) ∧
    isHardBanned "Florence + The Machine" "Dog Days Are Over"
      (HardBans.mk ["florence and the machine"] []) = true ∧
    isHardBanned "Weezer" "Buddy Holly"
      (HardBans.mk ["florence and the machine"] []) = false := by
  refine ⟨fun artist title hard_bans => ?_, by decide, by decide⟩
  simp only [isHardBanned, Bool.or_eq_true, List.any_eq_true,
    List.mem_map, pyInStr_iff_infix]
  constructor
  · rintro (⟨b, ⟨ban, hmem, rfl⟩, hinf⟩ | ⟨b, ⟨ban, hmem, rfl⟩, hinf⟩)
    · exact Or.inl ⟨ban, hmem, hinf⟩
    · exact Or.inr ⟨ban, hmem, hinf⟩
  · rintro (⟨ban, hmem, hinf⟩ | ⟨ban, hmem, hinf⟩)
    · exact Or.inl ⟨normalizeText ban, ⟨ban, hmem, rfl⟩, hinf⟩
    · exact Or.inr ⟨normalizeText ban, ⟨ban, hmem, rfl⟩, hinf⟩

/-- The `apply_constraints` fold agrees with the spec's greedy
recursion, for every starting state. -/
theorem applyConstraints_foldl_eq_specGo (cfg : ConstraintsCfg)
    (feedback : FeedbackState) (now : ℤ) :
    ∀ (tracks : List TrackCandidate) (counts : List (String × ℤ))
      (titles : List String) (acc : List TrackCandidate),
      (tracks.foldl (applyConstraintsStep cfg feedback now)
        (counts, titles, acc)).2.2 =
        acc ++ applyConstraintsSpecGo cfg feedback now tracks counts titles := by
  intro tracks
  induction tracks with
  | nil =>
    intro counts titles acc
    simp [applyConstraintsSpecGo]
  | cons t rest ih =>
    intro counts titles acc
    rw [List.foldl_cons]
    simp only [applyConstraintsStep, applyConstraintsSpecGo]
    by_cases hA :
        (pyGet counts (strLower t.artist)).getD 0 ≥ cfg.max_tracks_per_artist
    · simp [hA, ih]
    · cases hB :
          (match pyGet feedback.track_last_seen (strLower t.track_id) with
           | some last =>
             decide (now - last < cfg.cooldown_days_same_track * 86400)
           | none => false) with
      | true => simp [hA, hB, ih]
      | false =>
        cases hC :
            (match pyGet feedback.artist_last_seen (strLower t.artist) with
             | some last =>
               decide (now - last < cfg.cooldown_days_same_artist * 86400)
             | none => false) with
        | true => simp [hA, hB, hC, ih]
        | false =>
          cases hD :
              (cfg.dedupe_title_variants &&
                titles.contains (normalizeText t.title)) with
          | true => simp [hA, hB, hC, hD, ih]
          | false => simp [hA, hB, hC, hD, ih]

/-- C2: `apply_constraints(tracks, profile, feedback_state, now)` is
exactly the single left-to-right greedy filter described by the spec
(reject on artist cap over the output so far, same-track cooldown,
same-artist cooldown, and — when enabled — already-accepted normalized
title); in particular with `max_tracks_per_artist = 1` the candidates
(Weezer, Weezer, Other) filter to [first Weezer, Other], and a single
candidate whose artist was seen 1 day ago under a 10-day artist
cooldown filters to []. -/
theorem c2_apply_constraints_greedy :
    (∀ (tracks : List TrackCandidate) (cfg : ConstraintsCfg)
        (feedback : FeedbackState) (now : ℤ),
      applyConstraints tracks cfg feedback now =
        applyConstraintsSpec tracks cfg feedback now) ∧
    applyConstraints
      [⟨"t1", "Song1", "Weezer", none, none, []⟩,
       ⟨"t2", "Song2", "Weezer", none, none, []⟩,
       ⟨"t3", "Song3", "Other", none, none, []⟩]
      ⟨1, 30, 10, false⟩ ⟨[], []⟩ 1000000000 =
      [⟨"t1", "Song1", "Weezer", none, none, []⟩,
       ⟨"t3", "Song3", "Other", none, none, []⟩] ∧
    applyConstraints [⟨"t1", "Song1", "Weezer", none, none, []⟩]
      ⟨1, 30, 10, false⟩ ⟨[], [("weezer", 1000000000 - 86400)]⟩
      1000000000 = [] := by
  refine ⟨fun tracks cfg feedback now => ?_, by decide, by decide⟩
  unfold applyConstraints applyConstraintsSpec
  simpa using applyConstraints_foldl_eq_specGo cfg feedback now tracks [] [] []

/-- A successful entry loop validates every entry, and every produced
recommendation comes from some entry. -/
theorem parseRecEntries_ok_spec :
    ∀ (l : List JValue) (rs : List GPTRecommendation),
      parseRecEntries l = .ok rs →
      (∀ e ∈ l, ∃ r, parseRecEntry e = .ok r) ∧
      (∀ r ∈ rs, ∃ e ∈ l, parseRecEntry e = .ok r) := by
  intro l
  induction l with
  | nil =>
    intro rs h
    unfold parseRecEntries at h
    cases h
    exact ⟨by simp, by simp⟩
  | cons e t ih =>
    intro rs h
    unfold parseRecEntries at h
    cases he : parseRecEntry e with
    | error msg => rw [he] at h; cases h
    | ok r =>
      rw [he] at h
      cases ht : parseRecEntries t with
      | error msg => rw [ht] at h; cases h
      | ok rs' =>
        rw [ht] at h
        cases h
        obtain ⟨hall, hmem⟩ := ih rs' ht
        refine ⟨?_, ?_⟩
        · intro x hx
          rcases List.mem_cons.mp hx with rfl | hx
          · exact ⟨r, he⟩
          · exact hall x hx
        · intro x hx
          rcases List.mem_cons.mp hx with rfl | hx
          · exact ⟨e, List.mem_cons_self e t, he⟩
          · obtain ⟨e', he', hx'⟩ := hmem x hx
            exact ⟨e', List.mem_cons_of_mem e he', hx'⟩

/-- An entry whose validation fails makes the whole loop fail. -/
theorem parseRecEntries_error_of_mem (l : List JValue) (e : JValue)
    (he : e ∈ l) (herr : ∀ r, parseRecEntry e ≠ .ok r) :
    ∀ rs, parseRecEntries l ≠ .ok rs := by
  intro rs h
  obtain ⟨hall, _⟩ := parseRecEntries_ok_spec l rs h
  obtain ⟨r, hr⟩ := hall e he
  exact herr r hr

/-- A missing or falsy required field fails `_parse_rec`. -/
theorem parseRecEntry_error_of_lacks (fields : List (String × JValue))
    (hlacks : lacksField fields "title" = true ∨
      lacksField fields "artist" = true ∨
      lacksField fields "reason" = true) :
    ∀ r, parseRecEntry (.obj fields) ≠ .ok r := by
  have hreq : ∀ name, lacksField fields name = true →
      ∀ v, requireField fields name ≠ .ok v := by
    intro name hname v hv
    unfold lacksField at hname
    unfold requireField at hv
    cases hg : pyGet fields name with
    | none => rw [hg] at hv; simp at hv
    | some w =>
      rw [hg] at hname hv
      simp only [] at hname
      simp [hname] at hv
  intro r h
  cases h1 : requireField fields "title" with
  | error m => simp only [parseRecEntry, h1] at h; cases h
  | ok v1 =>
    cases h2 : requireField fields "artist" with
    | error m => simp only [parseRecEntry, h1, h2] at h; cases h
    | ok v2 =>
      cases h3 : requireField fields "reason" with
      | error m => simp only [parseRecEntry, h1, h2, h3] at h; cases h
      | ok v3 =>
        rcases hlacks with hl | hl | hl
        · exact hreq "title" hl v1 h1
        · exact hreq "artist" hl v2 h2
        · exact hreq "reason" hl v3 h3

/-- Whatever `_parse_rec` accepts carries a confidence clamped into
`[0, 1]`. -/
theorem parseRecEntry_confidence_clamped (e : JValue)
    (r : GPTRecommendation) (h : parseRecEntry e = .ok r) :
    0 ≤ r.confidence ∧ r.confidence ≤ 1 := by
  cases e with
  | obj fields =>
    cases h1 : requireField fields "title" with
    | error m => simp only [parseRecEntry, h1] at h; cases h
    | ok v1 =>
      cases h2 : requireField fields "artist" with
      | error m => simp only [parseRecEntry, h1, h2] at h; cases h
      | ok v2 =>
        cases h3 : requireField fields "reason" with
        | error m => simp only [parseRecEntry, h1, h2, h3] at h; cases h
        | ok v3 =>
          cases h4 : pyFloatOfJ
              ((pyGet fields "confidence").getD (.num (mkRat 1 2))) with
          | error m => simp only [parseRecEntry, h1, h2, h3, h4] at h; cases h
          | ok conf0 =>
            simp only [parseRecEntry, h1, h2, h3, h4, Except.ok.injEq] at h
            subst h
            exact ⟨le_max_left 0 _, max_le (by norm_num) (min_le_left 1 _)⟩
  | null => cases h
  | bool b => cases h
  | num q => cases h
  | str s => cases h
  | arr l => cases h

/-- C5: `GPTResponseParser.parse` raises (modelled as `Except.error`,
never `.ok`) when the top-level `recommendations` field is missing or
not a list, and when any entry lacks (or holds a falsy value under)
`title`, `artist` or `reason`; every accepted entry's confidence is
coerced and clamped into `[0, 1]`; and concretely an entry with
confidence `1.7` and energy tag `"FriDay"` parses to confidence `1.0`,
lower-cased energy tag `"friday"`, and `none` for the absent optional
`spotify_track_id`. -/
theorem c5_parser_schema_validation :
    (∀ payload : JValue,
      (∀ l, recommendationsField payload ≠ some (.arr l)) →
      ∀ rs, parseGptResponse payload ≠ .ok rs) ∧
    (∀ (pre post : List JValue) (e : List (String × JValue)),
      (lacksField e "title" = true ∨ lacksField e "artist" = true ∨
        lacksField e "reason" = true) →
      ∀ rs, parseGptResponse
        (.obj [("recommendations", .arr (pre ++ .obj e :: post))]) ≠
        .ok rs) ∧
    (∀ (payload : JValue) (rs : List GPTRecommendation),
      parseGptResponse payload = .ok rs →
      ∀ r ∈ rs, 0 ≤ r.confidence ∧ r.confidence ≤ 1) ∧
    parseGptResponse
      (.obj [("recommendations",
        .arr [.obj [("title", .str "T"), ("artist", .str "A"),
                    ("reason", .str "R"),
                    ("energy_tag", .str "FriDay"),
                    ("confidence", .num (mkRat 17 10))]])]) =
      .ok [{ title := "T", artist := "A", reason := "R",
             energy_tag := some "friday", spotify_track_id := none,
             confidence := 1 }] := by
  refine ⟨?_, ?_, ?_, rfl⟩
  · intro payload hno rs hc
    cases payload with
    | obj fields =>
      cases hg : pyGet fields "recommendations" with
      | none => simp only [parseGptResponse, hg] at hc; cases hc
      | some v =>
        cases v with
        | arr l => exact hno l (by simpa only [recommendationsField] using hg)
        | null => simp only [parseGptResponse, hg] at hc; cases hc
        | bool b => simp only [parseGptResponse, hg] at hc; cases hc
        | num q => simp only [parseGptResponse, hg] at hc; cases hc
        | str s => simp only [parseGptResponse, hg] at hc; cases hc
        | obj o => simp only [parseGptResponse, hg] at hc; cases hc
    | null => simp only [parseGptResponse] at hc; cases hc
    | bool b => simp only [parseGptResponse] at hc; cases hc
    | num q => simp only [parseGptResponse] at hc; cases hc
    | str s => simp only [parseGptResponse] at hc; cases hc
    | arr l => simp only [parseGptResponse] at hc; cases hc
  · intro pre post e hl rs hc
    refine parseRecEntries_error_of_mem (pre ++ .obj e :: post) (.obj e)
      (List.mem_append_right pre (List.mem_cons_self _ _))
      (parseRecEntry_error_of_lacks e hl) rs ?_
    exact hc
  · intro payload rs h r hr
    cases payload with
    | obj fields =>
      cases hg : pyGet fields "recommendations" with
      | none => simp only [parseGptResponse, hg] at h; cases h
      | some v =>
        cases v with
        | arr l =>
          simp only [parseGptResponse, hg] at h
          obtain ⟨e, _, he⟩ := (parseRecEntries_ok_spec l rs h).2 r hr
          exact parseRecEntry_confidence_clamped e r he
        | null => simp only [parseGptResponse, hg] at h; cases h
        | bool b => simp only [parseGptResponse, hg] at h; cases h
        | num q => simp only [parseGptResponse, hg] at h; cases h
        | str s => simp only [parseGptResponse, hg] at h; cases h
        | obj o => simp only [parseGptResponse, hg] at h; cases h
    | null => simp only [parseGptResponse] at h; cases h
    | bool b => simp only [parseGptResponse] at h; cases h
    | num q => simp only [parseGptResponse] at h; cases h
    | str s => simp only [parseGptResponse] at h; cases h
    | arr l => simp only [parseGptResponse] at h; cases h

theorem c5_parser_schema_validation_witness :
    (∀ rs, parseGptResponse (.obj [("picks", .arr [])]) ≠ .ok rs) ∧
    (∀ rs, parseGptResponse
      (.obj [("recommendations",
        .arr [.obj [("artist", .str "A"), ("reason", .str "R")]])]) ≠
      .ok rs) :=
  ⟨c5_parser_schema_validation.1 _ (fun l h => by cases h),
    c5_parser_schema_validation.2.1 [] [] _ (Or.inl (by decide))⟩

/-- A value produced by a dict lookup is one of the dict's values. -/
theorem pyGet_mem_values {α : Type} :
    ∀ (d : List (String × α)) (key : String) (t : α),
      pyGet d key = some t → t ∈ d.map Prod.snd := by
  intro d
  induction d with
  | nil => intro key t h; cases h
  | cons p rest ih =>
    intro key t h
    unfold pyGet at h
    by_cases hk : p.1 == key
    · obtain ⟨k, v⟩ := p
      rw [if_pos hk] at h
      cases h
      exact List.mem_cons_self _ _
    · obtain ⟨k, v⟩ := p
      rw [if_neg hk] at h
      exact List.mem_cons_of_mem _ (ih key t h)

/-- Inserting into a dict model only adds the inserted value. -/
theorem pyInsert_values_subset {α : Type} (d : List (String × α))
    (k : String) (v x : α) (hx : x ∈ (pyInsert d k v).map Prod.snd) :
    x = v ∨ x ∈ d.map Prod.snd := by
  unfold pyInsert at hx
  by_cases hc : d.any (fun p => p.1 == k)
  · rw [if_pos hc] at hx
    rw [List.map_map] at hx
    obtain ⟨p, hp, he⟩ := List.mem_map.mp hx
    by_cases hpk : p.1 == k
    · left
      simp only [Function.comp_apply, if_pos hpk] at he
      exact he.symm
    · right
      simp only [Function.comp_apply, if_neg hpk] at he
      exact he ▸ List.mem_map_of_mem Prod.snd hp
  · rw [if_neg hc] at hx
    rw [List.map_append] at hx
    rcases List.mem_append.mp hx with hx | hx
    · exact Or.inr hx
    · left
      simpa using hx

/-- Every value of the pool index is a pool track. -/
theorem buildTrackIndex_values_mem (pool : List TrackCandidate) :
    ∀ (k : String) (t : TrackCandidate),
      pyGet (buildTrackIndex pool) k = some t → t ∈ pool := by
  suffices hgen : ∀ (l : List TrackCandidate) (p : TrackCandidate → Prop)
      (acc : List (String × TrackCandidate)),
      (∀ x ∈ acc.map Prod.snd, p x) → (∀ t ∈ l, p t) →
      ∀ x ∈ ((l.foldl
        (fun index track =>
          let index :=
            if track.track_id ≠ "" then
              pyInsert index (strLower track.track_id) track
            else index
          pyInsert index (normalizeKey track.artist track.title) track)
        acc).map Prod.snd), p x by
    intro k t h
    exact hgen pool (fun x => x ∈ pool) [] (by simp) (fun t ht => ht) t
      (pyGet_mem_values _ k t h)
  intro l
  induction l with
  | nil =>
    intro p acc hacc hl x hx
    exact hacc x hx
  | cons track rest ih =>
    intro p acc hacc hl x hx
    rw [List.foldl_cons] at hx
    refine ih p _ ?_ (fun t ht => hl t (List.mem_cons_of_mem _ ht)) x hx
    intro y hy
    rcases pyInsert_values_subset _ _ _ _ hy with rfl | hy
    · exact hl y (List.mem_cons_self _ _)
    · by_cases hid : track.track_id ≠ ""
      · rw [if_pos hid] at hy
        rcases pyInsert_values_subset _ _ _ _ hy with rfl | hy
        · exact hl y (List.mem_cons_self _ _)
        · exact hacc y hy
      · rw [if_neg hid] at hy
        exact hacc y hy

/-- The matcher in closed form: the matched list is the enrichment of
every resolvable recommendation in order, and the warnings are exactly
the unresolvable recommendations' messages in order. -/
theorem matchRecommendations_closed (index : List (String × TrackCandidate)) :
    ∀ recs : List GPTRecommendation,
      (matchRecommendations recs index).1 =
        recs.filterMap (fun r => (resolveRec index r).map (enrichRec r)) ∧
      (matchRecommendations recs index).2 =
        (recs.filter (fun r => (resolveRec index r).isNone)).map recWarning := by
  intro recs
  induction recs with
  | nil => exact ⟨rfl, rfl⟩
  | cons rec rest ih =>
    cases hr : resolveRec index rec with
    | none =>
      refine ⟨?_, ?_⟩
      · simp [matchRecommendations, hr, ih.1]
      · simp [matchRecommendations, hr, ih.2]
    | some t =>
      refine ⟨?_, ?_⟩
      · simp [matchRecommendations, hr, ih.1]
      · simp [matchRecommendations, hr, ih.2]

/-- A resolved recommendation comes from some index key. -/
theorem resolveRec_some_key (index : List (String × TrackCandidate))
    (r : GPTRecommendation) (t : TrackCandidate)
    (h : resolveRec index r = some t) : ∃ k, pyGet index k = some t := by
  unfold resolveRec at h
  by_cases htr : truthyOptStr r.spotify_track_id
  · rw [if_pos htr] at h
    cases hby : pyGet index (strLower (r.spotify_track_id.getD "")) with
    | some t' =>
      rw [hby] at h
      cases h
      exact ⟨strLower (r.spotify_track_id.getD ""), hby⟩
    | none =>
      rw [hby] at h
      exact ⟨normalizeKey r.artist r.title, h⟩
  · rw [if_neg htr] at h
    exact ⟨normalizeKey r.artist r.title, h⟩

/-- C4: in `_match_recommendations` run over the `track_pool` index,
the warnings are exactly one message per unresolvable recommendation
(one whose truthy lower-cased id — if any — and normalized
`artist::title` key are both absent from the index) in order, the
matched list is exactly the metadata-enriched resolved pool tracks in
order, resolution tries the identifier before the composite key, and
every matched track keeps the identity (id, title, artist) of a track
of the pool — no track is fabricated. -/
theorem c4_matcher_warns_and_never_fabricates :
    ∀ (recs : List GPTRecommendation) (pool : List TrackCandidate),
      ((matchRecommendations recs (buildTrackIndex pool)).2 =
        (recs.filter
          (fun r => (resolveRec (buildTrackIndex pool) r).isNone)).map
          recWarning) ∧
      ((matchRecommendations recs (buildTrackIndex pool)).1 =
        recs.filterMap
          (fun r => (resolveRec (buildTrackIndex pool) r).map
            (enrichRec r))) ∧
      (∀ (r : GPTRecommendation) (t : TrackCandidate),
        truthyOptStr r.spotify_track_id = true →
        pyGet (buildTrackIndex pool)
          (strLower (r.spotify_track_id.getD "")) = some t →
        resolveRec (buildTrackIndex pool) r = some t) ∧
      (∀ r : GPTRecommendation,
        resolveRec (buildTrackIndex pool) r = none ↔
          ((truthyOptStr r.spotify_track_id = true →
            pyGet (buildTrackIndex pool)
              (strLower (r.spotify_track_id.getD "")) = none) ∧
            pyGet (buildTrackIndex pool)
              (normalizeKey r.artist r.title) = none)) ∧
      (∀ t ∈ (matchRecommendations recs (buildTrackIndex pool)).1,
        ∃ t0 ∈ pool, t.track_id = t0.track_id ∧ t.title = t0.title ∧
          t.artist = t0.artist) := by
  intro recs pool
  refine ⟨(matchRecommendations_closed _ recs).2,
    (matchRecommendations_closed _ recs).1, ?_, ?_, ?_⟩
  · intro r t htr hlook
    unfold resolveRec
    rw [if_pos htr, hlook]
  · intro r
    unfold resolveRec
    by_cases htr : truthyOptStr r.spotify_track_id
    · rw [if_pos htr]
      cases hby : pyGet (buildTrackIndex pool)
          (strLower (r.spotify_track_id.getD "")) with
      | some t' => simp [htr, hby]
      | none => simp [htr, hby]
    · rw [if_neg htr]
      simp only [Bool.not_eq_true] at htr
      simp [htr]
  · intro t ht
    rw [(matchRecommendations_closed _ recs).1] at ht
    obtain ⟨r, _, hr⟩ := List.mem_filterMap.mp ht
    cases hres : resolveRec (buildTrackIndex pool) r with
    | none => rw [hres] at hr; cases hr
    | some t0 =>
      rw [hres] at hr
      cases hr
      obtain ⟨k, hk⟩ := resolveRec_some_key _ r t0 hres
      exact ⟨t0, buildTrackIndex_values_mem pool k t0 hk, rfl, rfl, rfl⟩

theorem c4_matcher_warns_and_never_fabricates_witness :
    resolveRec
      (buildTrackIndex [⟨"cand1", "Pool Song", "Pool Artist", none, none,
        []⟩])
      ⟨"Discovery Song", "Pool Artist", "Adds variety", none, some "cand1",
        mkRat 9 10⟩ =
      some ⟨"cand1", "Pool Song", "Pool Artist", none, none, []⟩ ∧
    ∃ t0 ∈ [(⟨"cand1", "Pool Song", "Pool Artist", none, none, []⟩ :
        TrackCandidate)],
      (enrichRec
        ⟨"Discovery Song", "Pool Artist", "Adds variety", none, some "cand1",
          mkRat 9 10⟩
        ⟨"cand1", "Pool Song", "Pool Artist", none, none, []⟩).track_id =
        t0.track_id ∧
      (enrichRec
        ⟨"Discovery Song", "Pool Artist", "Adds variety", none, some "cand1",
          mkRat 9 10⟩
        ⟨"cand1", "Pool Song", "Pool Artist", none, none, []⟩).title =
        t0.title ∧
      (enrichRec
        ⟨"Discovery Song", "Pool Artist", "Adds variety", none, some "cand1",
          mkRat 9 10⟩
        ⟨"cand1", "Pool Song", "Pool Artist", none, none, []⟩).artist =
        t0.artist :=
  ⟨(c4_matcher_warns_and_never_fabricates
      [⟨"Discovery Song", "Pool Artist", "Adds variety", none, some "cand1",
        mkRat 9 10⟩]
      [⟨"cand1", "Pool Song", "Pool Artist", none, none, []⟩]).2.2.1 _ _
      (by decide) (by rfl),
    (c4_matcher_warns_and_never_fabricates
      [⟨"Discovery Song", "Pool Artist", "Adds variety", none, some "cand1",
        mkRat 9 10⟩]
      [⟨"cand1", "Pool Song", "Pool Artist", none, none, []⟩]).2.2.2.2 _
      (by exact List.mem_cons_self _ _)⟩

/-- The discovery phase of `merge_gpt_recommendations`: the seed state
after adding the truncated matched discoveries. -/
def mergeSeed (pool : List TrackCandidate) (recs : List GPTRecommendation)
    (total_limit : ℤ) (discovery_ratio : ℚ) :
    List TrackCandidate × List String :=
  (matchedDiscoveriesOf pool recs total_limit discovery_ratio).foldl
    addTrack ([], [])

/-- The state after the `base_tracks` fill loop. -/
def mergeAfterBase (base_tracks pool : List TrackCandidate)
    (recs : List GPTRecommendation) (total_limit : ℤ)
    (discovery_ratio : ℚ) : List TrackCandidate × List String :=
  base_tracks.foldl (guardedAddTrack total_limit)
    (mergeSeed pool recs total_limit discovery_ratio)

/-- The state after the remaining-pool fill loop. -/
def mergeAfterPool (base_tracks pool : List TrackCandidate)
    (recs : List GPTRecommendation) (total_limit : ℤ)
    (discovery_ratio : ℚ) : List TrackCandidate × List String :=
  let s2 := mergeAfterBase base_tracks pool recs total_limit discovery_ratio
  if (s2.1.length : ℤ) < total_limit then
    (pool.filter (fun t => !(s2.2.contains t.track_id))).foldl
      (guardedAddTrack total_limit) s2
  else s2

/-- The final (pre-sort) track list of `merge_gpt_recommendations`. -/
def mergeFinalTracks (base_tracks pool : List TrackCandidate)
    (recs : List GPTRecommendation) (total_limit : ℤ)
    (discovery_ratio : ℚ) : List TrackCandidate :=
  (mergeAfterPool base_tracks pool recs total_limit discovery_ratio).1.take
    total_limit.toNat

/-- On a positive limit the merge is the filled list (sorted when rule
preferences are supplied) together with the matcher's warnings. -/
theorem mergeGptRecommendations_pos (base_tracks pool : List TrackCandidate)
    (recs : List GPTRecommendation) (total_limit : ℤ) (discovery_ratio : ℚ)
    (prefs : Option RulePreferences) (h : 0 < total_limit) :
    mergeGptRecommendations base_tracks pool recs total_limit
      discovery_ratio prefs =
      match prefs with
      | some p =>
        (pySortByWeightDesc (fun t => preferenceWeight t p)
          (mergeFinalTracks base_tracks pool recs total_limit
            discovery_ratio),
         (matchRecommendations recs (buildTrackIndex pool)).2)
      | none =>
        (mergeFinalTracks base_tracks pool recs total_limit discovery_ratio,
         (matchRecommendations recs (buildTrackIndex pool)).2) := by
  unfold mergeGptRecommendations mergeFinalTracks mergeAfterPool
    mergeAfterBase mergeSeed matchedDiscoveriesOf
  rw [if_neg (not_le.mpr h)]

/-- `dedupById` only reads membership of `seen`, not its order. -/
theorem dedupById_congr :
    ∀ (l : List TrackCandidate) (s1 s2 : List String),
      (∀ x, x ∈ s1 ↔ x ∈ s2) → dedupById l s1 = dedupById l s2 := by
  intro l
  induction l with
  | nil => intro s1 s2 _; rfl
  | cons t rest ih =>
    intro s1 s2 hiff
    have hc : s1.contains t.track_id = s2.contains t.track_id := by
      by_cases h1 : t.track_id ∈ s1
      · have h2 : t.track_id ∈ s2 := (hiff _).mp h1
        simp [h1, h2]
      · have h2 : t.track_id ∉ s2 := fun h => h1 ((hiff _).mpr h)
        simp [h1, h2]
    unfold dedupById
    rw [hc]
    by_cases h2 : s2.contains t.track_id
    · rw [if_pos h2, if_pos h2]
      exact ih s1 s2 hiff
    · rw [if_neg h2, if_neg h2]
      rw [ih (t.track_id :: s1) (t.track_id :: s2) (by intro x; simp [hiff x])]

/-- The ids produced by `dedupById` are distinct and avoid `seen`. -/
theorem dedupById_ids_nodup :
    ∀ (l : List TrackCandidate) (seen : List String),
      ((dedupById l seen).map (fun t => t.track_id)).Nodup ∧
      ∀ x ∈ (dedupById l seen).map (fun t => t.track_id), x ∉ seen := by
  intro l
  induction l with
  | nil => intro seen; simp [dedupById]
  | cons t rest ih =>
    intro seen
    unfold dedupById
    by_cases hmem : seen.contains t.track_id
    · rw [if_pos hmem]
      exact ih seen
    · rw [if_neg hmem]
      obtain ⟨hnodup, havoid⟩ := ih (t.track_id :: seen)
      have hid : t.track_id ∉ seen := by
        intro h
        exact hmem (by simpa using h)
      refine ⟨?_, ?_⟩
      · rw [List.map_cons, List.nodup_cons]
        refine ⟨fun h => (havoid _ h) (List.mem_cons_self _ _), hnodup⟩
      · intro x hx
        rw [List.map_cons] at hx
        rcases List.mem_cons.mp hx with rfl | hx
        · exact hid
        · exact fun h => (havoid x hx) (List.mem_cons_of_mem _ h)

/-- `dedupById` only keeps elements of its input. -/
theorem dedupById_subset :
    ∀ (l : List TrackCandidate) (seen : List String),
      ∀ t ∈ dedupById l seen, t ∈ l := by
  intro l
  induction l with
  | nil => intro seen t ht; cases ht
  | cons a rest ih =>
    intro seen t ht
    unfold dedupById at ht
    by_cases hmem : seen.contains a.track_id
    · rw [if_pos hmem] at ht
      exact List.mem_cons_of_mem _ (ih seen t ht)
    · rw [if_neg hmem] at ht
      rcases List.mem_cons.mp ht with rfl | ht
      · exact List.mem_cons_self _ _
      · exact List.mem_cons_of_mem _ (ih _ t ht)

/-- The unguarded `add_track` fold appends the deduplication of its
input, and keeps `seen_ids` equal to the ids of `final_tracks`. -/
theorem foldl_addTrack_spec :
    ∀ (l acc : List TrackCandidate) (seen : List String),
      seen = acc.map (fun t => t.track_id) →
      (l.foldl addTrack (acc, seen)).1 = acc ++ dedupById l seen ∧
      (l.foldl addTrack (acc, seen)).2 =
        ((l.foldl addTrack (acc, seen)).1).map (fun t => t.track_id) := by
  intro l
  induction l with
  | nil =>
    intro acc seen hs
    simp [dedupById, hs]
  | cons t rest ih =>
    intro acc seen hs
    rw [List.foldl_cons]
    by_cases hmem : seen.contains t.track_id
    · have hstep : addTrack (acc, seen) t = (acc, seen) := by
        unfold addTrack
        rw [if_pos hmem]
      rw [hstep]
      have hd : dedupById (t :: rest) seen = dedupById rest seen := by
        simp only [dedupById]
        rw [if_pos hmem]
      rw [hd]
      exact ih acc seen hs
    · have hstep : addTrack (acc, seen) t =
          (acc ++ [t], seen ++ [t.track_id]) := by
        unfold addTrack
        rw [if_neg hmem]
      rw [hstep]
      have hs' : seen ++ [t.track_id] =
          (acc ++ [t]).map (fun t => t.track_id) := by
        rw [hs]
        simp
      obtain ⟨h1, h2⟩ := ih (acc ++ [t]) (seen ++ [t.track_id]) hs'
      have hcongr : dedupById rest (seen ++ [t.track_id]) =
          dedupById rest (t.track_id :: seen) :=
        dedupById_congr rest _ _ (by intro x; simp [or_comm])
      have hd : dedupById (t :: rest) seen =
          t :: dedupById rest (t.track_id :: seen) := by
        simp only [dedupById]
        rw [if_neg hmem]
      refine ⟨?_, h2⟩
      rw [h1, hcongr, hd, List.append_assoc, List.singleton_append]

/-- The limit-guarded fill loop appends the deduplication of its input
truncated to the remaining room, and keeps `seen_ids` equal to the ids
of `final_tracks`. -/
theorem foldl_guardedAdd_spec (total_limit : ℤ) :
    ∀ (l acc : List TrackCandidate) (seen : List String),
      seen = acc.map (fun t => t.track_id) →
      (l.foldl (guardedAddTrack total_limit) (acc, seen)).1 =
        acc ++ (dedupById l seen).take (total_limit.toNat - acc.length) ∧
      (l.foldl (guardedAddTrack total_limit) (acc, seen)).2 =
        ((l.foldl (guardedAddTrack total_limit) (acc, seen)).1).map
          (fun t => t.track_id) := by
  intro l
  induction l with
  | nil =>
    intro acc seen hs
    simp [dedupById, hs]
  | cons t rest ih =>
    intro acc seen hs
    rw [List.foldl_cons]
    by_cases hguard : total_limit ≤ (acc.length : ℤ)
    · have hstep : guardedAddTrack total_limit (acc, seen) t = (acc, seen) := by
        unfold guardedAddTrack
        rw [if_pos hguard]
      rw [hstep]
      obtain ⟨h1, h2⟩ := ih acc seen hs
      have htake : total_limit.toNat - acc.length = 0 := by omega
      rw [htake] at h1
      refine ⟨?_, h2⟩
      rw [h1, htake]
      simp
    · have hroom : (acc.length : ℤ) < total_limit := not_le.mp hguard
      by_cases hmem : seen.contains t.track_id
      · have hstep : guardedAddTrack total_limit (acc, seen) t =
            (acc, seen) := by
          unfold guardedAddTrack addTrack
          rw [if_neg hguard, if_pos hmem]
        rw [hstep]
        have hd : dedupById (t :: rest) seen = dedupById rest seen := by
          simp only [dedupById]
          rw [if_pos hmem]
        rw [hd]
        exact ih acc seen hs
      · have hstep : guardedAddTrack total_limit (acc, seen) t =
            (acc ++ [t], seen ++ [t.track_id]) := by
          unfold guardedAddTrack addTrack
          rw [if_neg hguard, if_neg hmem]
        rw [hstep]
        have hs' : seen ++ [t.track_id] =
            (acc ++ [t]).map (fun t => t.track_id) := by
          rw [hs]
          simp
        obtain ⟨h1, h2⟩ := ih (acc ++ [t]) (seen ++ [t.track_id]) hs'
        have hcongr : dedupById rest (seen ++ [t.track_id]) =
            dedupById rest (t.track_id :: seen) :=
          dedupById_congr rest _ _ (by intro x; simp [or_comm])
        have hd : dedupById (t :: rest) seen =
            t :: dedupById rest (t.track_id :: seen) := by
          simp only [dedupById]
          rw [if_neg hmem]
        refine ⟨?_, h2⟩
        rw [h1, hcongr, hd]
        have hlen : (acc ++ [t]).length = acc.length + 1 := by simp
        rw [hlen]
        have hn : total_limit.toNat - acc.length =
            (total_limit.toNat - (acc.length + 1)) + 1 := by omega
        rw [hn, List.take_succ_cons, List.append_assoc,
          List.singleton_append]

/-- Pair form of `foldl_guardedAdd_spec`. -/
theorem foldl_guardedAdd_spec_pair (total_limit : ℤ)
    (l : List TrackCandidate) (s : List TrackCandidate × List String)
    (hs : s.2 = s.1.map (fun t => t.track_id)) :
    (l.foldl (guardedAddTrack total_limit) s).1 =
      s.1 ++ (dedupById l s.2).take (total_limit.toNat - s.1.length) ∧
    (l.foldl (guardedAddTrack total_limit) s).2 =
      ((l.foldl (guardedAddTrack total_limit) s).1).map
        (fun t => t.track_id) := by
  obtain ⟨acc, seen⟩ := s
  exact foldl_guardedAdd_spec total_limit l acc seen hs

/-- Appending room-limited fresh deduplicated tracks preserves
distinctness of ids. -/
theorem nodup_append_take_dedup (acc l : List TrackCandidate) (n : ℕ)
    (h : (acc.map (fun t => t.track_id)).Nodup) :
    ((acc ++
      (dedupById l (acc.map (fun t => t.track_id))).take n).map
        (fun t => t.track_id)).Nodup := by
  rw [List.map_append, List.nodup_append]
  refine ⟨h, ?_, ?_⟩
  · rw [List.map_take]
    exact (List.take_sublist n _).nodup
      (dedupById_ids_nodup l (acc.map (fun t => t.track_id))).1
  · intro a ha hb
    rw [List.map_take] at hb
    have hmem : a ∈ (dedupById l (acc.map (fun t => t.track_id))).map
        (fun t => t.track_id) := (List.take_sublist n _).subset hb
    exact (dedupById_ids_nodup l _).2 a hmem ha

/-- Stable descending insertion permutes. -/
theorem orderedInsertDesc_perm {α : Type} (w : α → ℚ) (a : α) :
    ∀ l : List α, (orderedInsertDesc w a l).Perm (a :: l) := by
  intro l
  induction l with
  | nil => exact List.Perm.refl _
  | cons b t ih =>
    unfold orderedInsertDesc
    by_cases hle : w b ≤ w a
    · rw [if_pos hle]
    · rw [if_neg hle]
      exact (ih.cons b).trans (List.Perm.swap a b t)

/-- The modelled Python sort permutes its input. -/
theorem pySortByWeightDesc_perm {α : Type} (w : α → ℚ) :
    ∀ l : List α, (pySortByWeightDesc w l).Perm l := by
  intro l
  induction l with
  | nil => exact List.Perm.refl _
  | cons a t ih =>
    unfold pySortByWeightDesc
    exact (orderedInsertDesc_perm w a _).trans (ih.cons a)

/-- A list with distinct ids has at most `m.length` members of `m`. -/
theorem length_filter_mem_le (l m : List TrackCandidate)
    (h : (l.map (fun t => t.track_id)).Nodup) :
    (l.filter (fun t => decide (t ∈ m))).length ≤ m.length := by
  have hl : l.Nodup := h.of_map _
  have hf : (l.filter (fun t => decide (t ∈ m))).Nodup :=
    (List.filter_sublist l).nodup hl
  have hsub : (l.filter (fun t => decide (t ∈ m))).toFinset ⊆ m.toFinset := by
    intro x hx
    rw [List.mem_toFinset] at hx ⊢
    have := List.of_mem_filter hx
    simpa using this
  calc (l.filter (fun t => decide (t ∈ m))).length
      = (l.filter (fun t => decide (t ∈ m))).toFinset.card :=
        (List.toFinset_card_of_nodup hf).symm
    _ ≤ m.toFinset.card := Finset.card_le_card hsub
    _ ≤ m.length := m.toFinset_card_le

/-- The pre-sort final list of the merge has distinct ids. -/
theorem mergeFinalTracks_ids_nodup (base_tracks pool : List TrackCandidate)
    (recs : List GPTRecommendation) (total_limit : ℤ)
    (discovery_ratio : ℚ) :
    ((mergeFinalTracks base_tracks pool recs total_limit
      discovery_ratio).map (fun t => t.track_id)).Nodup := by
  have hseed := foldl_addTrack_spec
    (matchedDiscoveriesOf pool recs total_limit discovery_ratio) [] []
    (by simp)
  have hseed1 : (mergeSeed pool recs total_limit discovery_ratio).1 =
      dedupById (matchedDiscoveriesOf pool recs total_limit discovery_ratio)
        [] := by
    have := hseed.1
    simpa [mergeSeed] using this
  have hseed2 : (mergeSeed pool recs total_limit discovery_ratio).2 =
      (mergeSeed pool recs total_limit discovery_ratio).1.map
        (fun t => t.track_id) := hseed.2
  have n1 : ((mergeSeed pool recs total_limit discovery_ratio).1.map
      (fun t => t.track_id)).Nodup := by
    rw [hseed1]
    exact (dedupById_ids_nodup _ _).1
  have hbase := foldl_guardedAdd_spec_pair total_limit base_tracks
    (mergeSeed pool recs total_limit discovery_ratio) hseed2
  have n2 : ((mergeAfterBase base_tracks pool recs total_limit
      discovery_ratio).1.map (fun t => t.track_id)).Nodup := by
    show ((base_tracks.foldl (guardedAddTrack total_limit)
      (mergeSeed pool recs total_limit discovery_ratio)).1.map
        (fun t => t.track_id)).Nodup
    rw [hbase.1, hseed2]
    exact nodup_append_take_dedup _ base_tracks _ n1
  have h22 : (mergeAfterBase base_tracks pool recs total_limit
      discovery_ratio).2 =
      (mergeAfterBase base_tracks pool recs total_limit
        discovery_ratio).1.map (fun t => t.track_id) := hbase.2
  have n3 : ((mergeAfterPool base_tracks pool recs total_limit
      discovery_ratio).1.map (fun t => t.track_id)).Nodup := by
    unfold mergeAfterPool
    by_cases hlt : (((mergeAfterBase base_tracks pool recs total_limit
        discovery_ratio).1.length : ℤ) < total_limit)
    · rw [if_pos hlt]
      have hpool := foldl_guardedAdd_spec_pair total_limit
        (pool.filter (fun t =>
          !((mergeAfterBase base_tracks pool recs total_limit
            discovery_ratio).2.contains t.track_id)))
        (mergeAfterBase base_tracks pool recs total_limit discovery_ratio)
        h22
      rw [hpool.1, h22]
      exact nodup_append_take_dedup _ _ _ n2
    · rw [if_neg hlt]
      exact n2
  unfold mergeFinalTracks
  rw [List.map_take]
  exact (List.take_sublist _ _).nodup n3

/-- C1: for every `total_limit > 0` and `discovery_ratio ∈ [0, 1]`, the
track list returned by `merge_gpt_recommendations` has length at most
`total_limit`, contains no two tracks with the same identifier, and
contains at most `discovery_target` tracks taken from the (truncated)
matched recommendations, where `discovery_target` is the clamp
`max 0 (min total_limit (round (total_limit * discovery_ratio)))` —
stated by the last conjunct. -/
theorem c1_merge_bounded_nodup_discovery
    (base_tracks pool : List TrackCandidate)
    (recs : List GPTRecommendation) (total_limit : ℤ)
    (discovery_ratio : ℚ) (prefs : Option RulePreferences)
    (hlim : 0 < total_limit) (hr0 : 0 ≤ discovery_ratio)
    (hr1 : discovery_ratio ≤ 1) :
    (((mergeGptRecommendations base_tracks pool recs total_limit
      discovery_ratio prefs).1.length : ℤ) ≤ total_limit) ∧
    (((mergeGptRecommendations base_tracks pool recs total_limit
      discovery_ratio prefs).1.map (fun t => t.track_id)).Nodup) ∧
    (((mergeGptRecommendations base_tracks pool recs total_limit
      discovery_ratio prefs).1.filter (fun t => decide
        (t ∈ matchedDiscoveriesOf pool recs total_limit
          discovery_ratio))).length ≤
      (discoveryTargetOf total_limit discovery_ratio).toNat) ∧
    discoveryTargetOf total_limit discovery_ratio =
      max 0 (min total_limit (pyRoundMul total_limit discovery_ratio)) := by
  have hfin_len : ((mergeFinalTracks base_tracks pool recs total_limit
      discovery_ratio).length : ℤ) ≤ total_limit := by
    unfold mergeFinalTracks
    have := List.length_take_le total_limit.toNat
      (mergeAfterPool base_tracks pool recs total_limit discovery_ratio).1
    omega
  have hfin_nodup := mergeFinalTracks_ids_nodup base_tracks pool recs
    total_limit discovery_ratio
  have hfin_count : ((mergeFinalTracks base_tracks pool recs total_limit
      discovery_ratio).filter (fun t => decide
        (t ∈ matchedDiscoveriesOf pool recs total_limit
          discovery_ratio))).length ≤
      (discoveryTargetOf total_limit discovery_ratio).toNat := by
    refine le_trans (length_filter_mem_le _ _ hfin_nodup) ?_
    unfold matchedDiscoveriesOf
    exact List.length_take_le _ _
  rw [mergeGptRecommendations_pos base_tracks pool recs total_limit
    discovery_ratio prefs hlim]
  cases prefs with
  | none => exact ⟨hfin_len, hfin_nodup, hfin_count, rfl⟩
  | some p =>
    have hperm := pySortByWeightDesc_perm (fun t => preferenceWeight t p)
      (mergeFinalTracks base_tracks pool recs total_limit discovery_ratio)
    refine ⟨?_, ?_, ?_, rfl⟩
    · rw [hperm.length_eq]
      exact hfin_len
    · exact ((hperm.map (fun t => t.track_id)).nodup_iff).mpr hfin_nodup
    · rw [(hperm.filter _).length_eq]
      exact hfin_count

theorem c1_merge_bounded_nodup_discovery_witness :
    ((0 : ℤ) < 2 ∧ (0 : ℚ) ≤ mkRat 1 2 ∧ mkRat 1 2 ≤ 1) ∧
    (((mergeGptRecommendations
      [⟨"base1", "Base Song 1", "Base Artist 1", none, none, []⟩,
       ⟨"base2", "Base Song 2", "Base Artist 2", none, none, []⟩]
      [⟨"base1", "Base Song 1", "Base Artist 1", none, none, []⟩,
       ⟨"base2", "Base Song 2", "Base Artist 2", none, none, []⟩,
       ⟨"cand1", "Discovery Song", "Pool Artist", none, none, []⟩]
      [⟨"Discovery Song", "Pool Artist", "Adds variety", none, some "cand1",
        mkRat 9 10⟩]
      2 (mkRat 1 2) none).1.length : ℤ) ≤ 2) ∧
    (((mergeGptRecommendations
      [⟨"base1", "Base Song 1", "Base Artist 1", none, none, []⟩,
       ⟨"base2", "Base Song 2", "Base Artist 2", none, none, []⟩]
      [⟨"base1", "Base Song 1", "Base Artist 1", none, none, []⟩,
       ⟨"base2", "Base Song 2", "Base Artist 2", none, none, []⟩,
       ⟨"cand1", "Discovery Song", "Pool Artist", none, none, []⟩]
      [⟨"Discovery Song", "Pool Artist", "Adds variety", none, some "cand1",
        mkRat 9 10⟩]
      2 (mkRat 1 2) none).1.map (fun t => t.track_id)).Nodup) :=
  ⟨⟨by decide, by decide, by decide⟩,
    (c1_merge_bounded_nodup_discovery _ _ _ _ _ _ (by decide) (by decide)
      (by decide)).1,
    (c1_merge_bounded_nodup_discovery _ _ _ _ _ _ (by decide) (by decide)
      (by decide)).2.1⟩

/-- C3 counterexample: at `discovery_ratio = 0` with rule preferences
supplied, the merge output is the preference-sorted list, not
`base_tracks` in input order — here base = [Pool Artist, Another] with
`increase_weight_artists = ["Another"]` comes back reordered, so the
claim's unconditional "equals base_tracks deduplicated/truncated/padded
in order" is false.  (This mirrors the repository's own test
`test_merge_applies_rule_preferences`.) -/
theorem c3_merge_ratio0_claim_counterexample :
    (mergeGptRecommendations
      [⟨"base1", "Base Song 1", "Pool Artist", none, none, []⟩,
       ⟨"base2", "Fav", "Another", none, none, []⟩]
      [⟨"base1", "Base Song 1", "Pool Artist", none, none, []⟩,
       ⟨"base2", "Fav", "Another", none, none, []⟩]
      [] 2 0 (some ⟨[], ["Pool Artist"], ["Another"]⟩)).1 =
      [⟨"base2", "Fav", "Another", none, none, []⟩,
       ⟨"base1", "Base Song 1", "Pool Artist", none, none, []⟩] ∧
    (mergeGptRecommendations
      [⟨"base1", "Base Song 1", "Pool Artist", none, none, []⟩,
       ⟨"base2", "Fav", "Another", none, none, []⟩]
      [⟨"base1", "Base Song 1", "Pool Artist", none, none, []⟩,
       ⟨"base2", "Fav", "Another", none, none, []⟩]
      [] 2 0 (some ⟨[], ["Pool Artist"], ["Another"]⟩)).1 ≠
      mergeRatio0Spec
        [⟨"base1", "Base Song 1", "Pool Artist", none, none, []⟩,
         ⟨"base2", "Fav", "Another", none, none, []⟩]
        [⟨"base1", "Base Song 1", "Pool Artist", none, none, []⟩,
         ⟨"base2", "Fav", "Another", none, none, []⟩] 2 := by
  constructor
  · decide
  · decide

/-- At `discovery_ratio = 0` the discovery target clamps to zero. -/
theorem discoveryTargetOf_zero (total_limit : ℤ) (h : 0 < total_limit) :
    discoveryTargetOf total_limit 0 = 0 := by
  have h1 : pyRoundMul total_limit 0 = 0 := by
    unfold pyRoundMul
    have hn : (0 : ℚ).num = 0 := rfl
    have hd : ((0 : ℚ).den : ℤ) = 1 := rfl
    rw [hn, hd, mul_zero]
    decide
  unfold discoveryTargetOf
  rw [h1]
  omega

/-- C3 (amended): for `discovery_ratio = 0`, any `total_limit > 0` and
no rule preferences, the merge output is exactly `base_tracks`
deduplicated by identifier in input order, truncated to `total_limit`,
padded from `track_pool` in pool order (skipping placed identifiers) —
regardless of how many recommendations are supplied, so it holds zero
discovery picks.  When rule preferences are supplied the list is
additionally stable-sorted by preference weight (the counterexample). -/
theorem c3_merge_ratio0_is_base_padded (base_tracks pool : List TrackCandidate)
    (recs : List GPTRecommendation) (total_limit : ℤ)
    (h : 0 < total_limit) :
    (mergeGptRecommendations base_tracks pool recs total_limit 0 none).1 =
      mergeRatio0Spec base_tracks pool total_limit.toNat := by
  have hmt : matchedDiscoveriesOf pool recs total_limit 0 = [] := by
    unfold matchedDiscoveriesOf
    rw [discoveryTargetOf_zero total_limit h]
    simp
  have hseed : mergeSeed pool recs total_limit 0 = ([], []) := by
    unfold mergeSeed
    rw [hmt]
    rfl
  have hb : mergeAfterBase base_tracks pool recs total_limit 0 =
      base_tracks.foldl (guardedAddTrack total_limit) ([], []) := by
    unfold mergeAfterBase
    rw [hseed]
  have hbase := foldl_guardedAdd_spec total_limit base_tracks [] []
    (by simp)
  have hplaced : (mergeAfterBase base_tracks pool recs total_limit 0).1 =
      (dedupById base_tracks []).take total_limit.toNat := by
    rw [hb, hbase.1]
    simp
  have hseen : (mergeAfterBase base_tracks pool recs total_limit 0).2 =
      ((dedupById base_tracks []).take total_limit.toNat).map
        (fun t => t.track_id) := by
    rw [hb, hbase.2, hbase.1]
    simp
  have hplen : ((dedupById base_tracks []).take total_limit.toNat).length ≤
      total_limit.toNat := List.length_take_le _ _
  rw [mergeGptRecommendations_pos base_tracks pool recs total_limit 0 none h]
  show mergeFinalTracks base_tracks pool recs total_limit 0 =
    mergeRatio0Spec base_tracks pool total_limit.toNat
  unfold mergeFinalTracks mergeAfterPool mergeRatio0Spec
  by_cases hlt : (((mergeAfterBase base_tracks pool recs total_limit 0).1.length : ℤ) <
      total_limit)
  · rw [if_pos hlt]
    have h22 : (mergeAfterBase base_tracks pool recs total_limit 0).2 =
        (mergeAfterBase base_tracks pool recs total_limit 0).1.map
          (fun t => t.track_id) := by
      rw [hplaced, hseen]
    have hpool := foldl_guardedAdd_spec_pair total_limit
      (pool.filter (fun t =>
        !((mergeAfterBase base_tracks pool recs total_limit 0).2.contains
          t.track_id)))
      (mergeAfterBase base_tracks pool recs total_limit 0) h22
    rw [hpool.1, hplaced, hseen]
    have hlen3 : ((dedupById base_tracks []).take total_limit.toNat).length +
        ((dedupById
          (pool.filter (fun t =>
            !((((dedupById base_tracks []).take total_limit.toNat).map
              (fun t => t.track_id)).contains t.track_id)))
          (((dedupById base_tracks []).take total_limit.toNat).map
            (fun t => t.track_id))).take
          (total_limit.toNat -
            ((dedupById base_tracks []).take total_limit.toNat).length)).length ≤
        total_limit.toNat := by
      have := List.length_take_le
        (total_limit.toNat -
          ((dedupById base_tracks []).take total_limit.toNat).length)
        (dedupById
          (pool.filter (fun t =>
            !((((dedupById base_tracks []).take total_limit.toNat).map
              (fun t => t.track_id)).contains t.track_id)))
          (((dedupById base_tracks []).take total_limit.toNat).map
            (fun t => t.track_id)))
      omega
    rw [List.take_of_length_le (by simpa using hlen3)]
  · rw [if_neg hlt]
    rw [hplaced] at hlt ⊢
    rw [List.take_of_length_le hplen]
    have hpad0 : total_limit.toNat -
        ((dedupById base_tracks []).take total_limit.toNat).length = 0 := by
      omega
    rw [List.length_take] at hpad0
    simp [hpad0]

theorem c3_merge_ratio0_is_base_padded_witness :
    (0 : ℤ) < 2 ∧
      (mergeGptRecommendations
        [⟨"base1", "Base Song 1", "Base Artist 1", none, none, []⟩]
        [⟨"base1", "Base Song 1", "Base Artist 1", none, none, []⟩,
         ⟨"cand1", "Discovery Song", "Pool Artist", none, none, []⟩]
        [⟨"Discovery Song", "Pool Artist", "Adds variety", none,
          some "cand1", mkRat 9 10⟩]
        2 0 none).1 =
        mergeRatio0Spec
          [⟨"base1", "Base Song 1", "Base Artist 1", none, none, []⟩]
          [⟨"base1", "Base Song 1", "Base Artist 1", none, none, []⟩,
           ⟨"cand1", "Discovery Song", "Pool Artist", none, none, []⟩]
          (2 : ℤ).toNat :=
  ⟨by decide,
    c3_merge_ratio0_is_base_padded _ _ _ 2 (by decide)⟩

/-- C8: the loader does not always return a fully-populated profile.
Evaluating `load_taste_profile` on the well-formed document
`{"hard_bans": []}` succeeds but leaves `hard_bans` as the bare list —
the default nested fields `hard_bans.artists` / `hard_bans.tracks` the
claim promises are gone (conjuncts 1–3; conjunct 3 shows the default
the claim expects); and on a document whose top level is a list the
loader raises (`data.items()` — `AttributeError`) instead of failing
soft (conjunct 4). -/
theorem c8_loader_not_always_fully_populated :
    loadTasteProfileData (.obj [("hard_bans", .arr [])]) =
      .ok (.obj (pyInsert defaultProfileFields "hard_bans" (.arr []))) ∧
    pyGet (pyInsert defaultProfileFields "hard_bans" (.arr [])) "hard_bans" =
      some (.arr []) ∧
    pyGet defaultProfileFields "hard_bans" =
      some (.obj [("artists", .arr []), ("tracks", .arr [])]) ∧
    loadTasteProfileData (.arr []) =
      .error "AttributeError: document top level is not a mapping" :=
  ⟨rfl, rfl, rfl, rfl⟩
